import Mathlib

/-!
Verification of the Signal Detection & Lifecycle Engine of the kucoin
trading bot.  Each Python function referenced by a claim is shallowly
embedded as an executable Lean definition over `ℚ` prices (the Python
code computes with floats; all arithmetic involved in the claims is
exact, and division by zero follows the `ℚ` convention `x / 0 = 0`).
Wall-clock fields (`created_at`, `updated_at`) are not represented;
age-based expiry (`_is_signal_expired`) enters the poll step as an
explicit Boolean input.  External effects (Telegram delivery, file
persistence, the AI optimizer callback) are not modelled: only their
interaction with the tracked record (notification keys, archival
counts) is kept.
-/

namespace KucoinBot

/-! ## Lifecycle tracker (`src/signal_tracker.py`) -/

/-- `SignalStatus` enum from `signal_tracker.py`. -/
inductive SignalStatus where
  | active
  | tp1Hit
  | tp2Hit
  | tp3Hit
  | stopLoss
  | expired
  | cancelled
deriving DecidableEq, Repr

/-- Signal direction; the Python code stores the string `"LONG"` or
`"SHORT"` in `signal_type` and branches on equality with `"LONG"`. -/
inductive Direction where
  | long
  | short
deriving DecidableEq, Repr

/-- Notification idempotence keys appended to `notifications_sent`
(`"tp1"`, `"tp2"`, `"tp3"`, `"stop_loss"` in the Python code). -/
inductive NotifKey where
  | tpKey (level : ℕ)
  | slKey
deriving DecidableEq, Repr

/-- `TrackedSignal` dataclass (price/state fields used by the tracker
logic; `signal_id`, `symbol`, timestamps and `analysis_data` are
omitted as no claim depends on them). -/
structure TrackedSignal where
  signalType : Direction
  entryPrice : ℚ
  currentPrice : ℚ
  stopLoss : ℚ
  tp1 : ℚ
  tp2 : ℚ
  tp3 : ℚ
  status : SignalStatus
  hitTpLevels : List ℕ
  maxProfitPercentage : ℚ
  maxLossPercentage : ℚ
  notificationsSent : List NotifKey
deriving DecidableEq, Repr

/-- Profit/max-loss high-water-mark update performed by
`update_signal_prices` after the current price is refreshed. -/
def updateExcursions (s : TrackedSignal) : TrackedSignal :=
  let profitPercentage : ℚ :=
    if s.signalType = .long then (s.currentPrice - s.entryPrice) / s.entryPrice * 100
    else (s.entryPrice - s.currentPrice) / s.entryPrice * 100
  if s.maxProfitPercentage < profitPercentage then
    { s with maxProfitPercentage := profitPercentage }
  else if profitPercentage < 0 ∧ s.maxLossPercentage < |profitPercentage| then
    { s with maxLossPercentage := |profitPercentage| }
  else s

/-- `_hit_take_profit`: append the level, set the status, send the
per-level notification once, and archive (`_complete_signal`) when TP3
is reached.  The second component counts appends to
`completed_signals`. -/
def hitTakeProfit (s : TrackedSignal) (tpLevel : ℕ) : TrackedSignal × ℕ :=
  let s := { s with hitTpLevels := s.hitTpLevels ++ [tpLevel] }
  let s := { s with status :=
    if tpLevel = 1 then .tp1Hit
    else if tpLevel = 2 then .tp2Hit
    else if tpLevel = 3 then .tp3Hit
    else s.status }
  let s :=
    if NotifKey.tpKey tpLevel ∈ s.notificationsSent then s
    else { s with notificationsSent := s.notificationsSent ++ [NotifKey.tpKey tpLevel] }
  if tpLevel = 3 then (s, 1) else (s, 0)

/-- `_hit_stop_loss`: set the status, send the stop-loss notification
once, and archive. -/
def hitStopLoss (s : TrackedSignal) : TrackedSignal × ℕ :=
  let s := { s with status := .stopLoss }
  let s :=
    if NotifKey.slKey ∈ s.notificationsSent then s
    else { s with notificationsSent := s.notificationsSent ++ [NotifKey.slKey] }
  (s, 1)

/-- `_check_tp_sl_levels`: stop-loss first (gated on `ACTIVE`, with an
early return), then TP3/TP2/TP1 in an `elif` chain, each guarded by
membership in `hit_tp_levels`. -/
def checkTpSlLevels (s : TrackedSignal) : TrackedSignal × ℕ :=
  if s.signalType = .long then
    if s.currentPrice ≤ s.stopLoss ∧ s.status = .active then
      hitStopLoss s
    else if s.tp3 ≤ s.currentPrice ∧ 3 ∉ s.hitTpLevels then
      hitTakeProfit s 3
    else if s.tp2 ≤ s.currentPrice ∧ 2 ∉ s.hitTpLevels then
      hitTakeProfit s 2
    else if s.tp1 ≤ s.currentPrice ∧ 1 ∉ s.hitTpLevels then
      hitTakeProfit s 1
    else (s, 0)
  else
    if s.stopLoss ≤ s.currentPrice ∧ s.status = .active then
      hitStopLoss s
    else if s.currentPrice ≤ s.tp3 ∧ 3 ∉ s.hitTpLevels then
      hitTakeProfit s 3
    else if s.currentPrice ≤ s.tp2 ∧ 2 ∉ s.hitTpLevels then
      hitTakeProfit s 2
    else if s.currentPrice ≤ s.tp1 ∧ 1 ∉ s.hitTpLevels then
      hitTakeProfit s 1
    else (s, 0)

/-- `_expire_signal`: set `EXPIRED` and archive via
`_complete_signal`.  In the Python code the append to
`completed_signals` is unconditional; only the `del` from the active
dict is guarded by membership. -/
def expireSignal (s : TrackedSignal) : TrackedSignal × ℕ :=
  ({ s with status := .expired }, 1)

/-- One iteration of `update_signal_prices` for a single signal:
refresh the current price, update the excursion high-water marks, run
`_check_tp_sl_levels`, and then — unconditionally, even if the signal
was just archived — run the age-expiry check.  `isExpired` is the
value of `_is_signal_expired(signal)` for this poll.  The second
component counts appends to `completed_signals` during the poll. -/
def pollSignal (s : TrackedSignal) (price : ℚ) (isExpired : Bool) :
    TrackedSignal × ℕ :=
  let s1 := updateExcursions { s with currentPrice := price }
  let r := checkTpSlLevels s1
  if isExpired then
    let r2 := expireSignal r.1
    (r2.1, r.2 + r2.2)
  else r

/-- A sequence of polls against one signal, each poll given the
fetched price and the expiry-check outcome.  A signal archived by a
poll has been removed from `active_signals`, so later polls no longer
process it; the run stops there.  Returns the final state of the
record together with the total number of appends to
`completed_signals`. -/
def runPolls : TrackedSignal → List (ℚ × Bool) → TrackedSignal × ℕ
  | s, [] => (s, 0)
  | s, (price, isExpired) :: rest =>
    let r := pollSignal s price isExpired
    if r.2 = 0 then runPolls r.1 rest else r

/-- The LONG example signal of the spec: entry 100, stop 98, TP levels
102 / 104 / 106, freshly created (`create_signal` initializes the
current price to the entry price, an empty `hit_tp_levels`, zeroed
excursions, and `ACTIVE` status). -/
def exampleLongSignal : TrackedSignal :=
  { signalType := .long
    entryPrice := 100
    currentPrice := 100
    stopLoss := 98
    tp1 := 102
    tp2 := 104
    tp3 := 106
    status := .active
    hitTpLevels := []
    maxProfitPercentage := 0
    maxLossPercentage := 0
    notificationsSent := [] }

/-! ### Supporting lemmas about the poll step -/

theorem updateExcursions_eq (s : TrackedSignal) :
    ∃ mp ml, updateExcursions s =
      { s with maxProfitPercentage := mp, maxLossPercentage := ml } := by
  simp only [updateExcursions]
  split <;> split
  all_goals try split
  all_goals exact ⟨_, _, rfl⟩

theorem updateExcursions_status (s : TrackedSignal) :
    (updateExcursions s).status = s.status := by
  obtain ⟨mp, ml, h⟩ := updateExcursions_eq s
  rw [h]

theorem updateExcursions_hitTpLevels (s : TrackedSignal) :
    (updateExcursions s).hitTpLevels = s.hitTpLevels := by
  obtain ⟨mp, ml, h⟩ := updateExcursions_eq s
  rw [h]

theorem hitTakeProfit_hitTpLevels (s : TrackedSignal) (lvl : ℕ) :
    (hitTakeProfit s lvl).1.hitTpLevels = s.hitTpLevels ++ [lvl] := by
  simp only [hitTakeProfit]
  split <;> split <;> rfl

theorem hitTakeProfit_status (s : TrackedSignal) (lvl : ℕ) :
    (hitTakeProfit s lvl).1.status =
      if lvl = 1 then .tp1Hit else if lvl = 2 then .tp2Hit
      else if lvl = 3 then .tp3Hit else s.status := by
  simp only [hitTakeProfit]
  split <;> split <;> rfl

theorem hitTakeProfit_archives (s : TrackedSignal) (lvl : ℕ) :
    (hitTakeProfit s lvl).2 = if lvl = 3 then 1 else 0 := by
  simp only [hitTakeProfit]
  split <;> split <;> rfl

theorem hitStopLoss_hitTpLevels (s : TrackedSignal) :
    (hitStopLoss s).1.hitTpLevels = s.hitTpLevels := by
  simp only [hitStopLoss]
  split <;> rfl

theorem hitStopLoss_status (s : TrackedSignal) :
    (hitStopLoss s).1.status = .stopLoss := by
  simp only [hitStopLoss]
  split <;> rfl

theorem hitStopLoss_archives (s : TrackedSignal) :
    (hitStopLoss s).2 = 1 := by
  simp only [hitStopLoss]

/-- `_check_tp_sl_levels` either leaves `hit_tp_levels` unchanged or
appends a single level that was not yet present. -/
theorem checkTpSlLevels_hitTpLevels (s : TrackedSignal) :
    (checkTpSlLevels s).1.hitTpLevels = s.hitTpLevels ∨
      ∃ lvl, lvl ∉ s.hitTpLevels ∧
        (checkTpSlLevels s).1.hitTpLevels = s.hitTpLevels ++ [lvl] := by
  simp only [checkTpSlLevels]
  split <;> split
  · exact .inl (hitStopLoss_hitTpLevels s)
  · split
    · rename_i h3
      exact .inr ⟨3, h3.2, hitTakeProfit_hitTpLevels s 3⟩
    · split
      · rename_i h2
        exact .inr ⟨2, h2.2, hitTakeProfit_hitTpLevels s 2⟩
      · split
        · rename_i h1
          exact .inr ⟨1, h1.2, hitTakeProfit_hitTpLevels s 1⟩
        · exact .inl rfl
  · exact .inl (hitStopLoss_hitTpLevels s)
  · split
    · rename_i h3
      exact .inr ⟨3, h3.2, hitTakeProfit_hitTpLevels s 3⟩
    · split
      · rename_i h2
        exact .inr ⟨2, h2.2, hitTakeProfit_hitTpLevels s 2⟩
      · split
        · rename_i h1
          exact .inr ⟨1, h1.2, hitTakeProfit_hitTpLevels s 1⟩
        · exact .inl rfl

/-- Exhaustive case analysis of `_check_tp_sl_levels`: it either takes
the stop-loss path (only from `ACTIVE`), hits exactly one not-yet-hit
TP level, or leaves the signal unchanged. -/
theorem checkTpSlLevels_cases (t : TrackedSignal) :
    (t.status = .active ∧ checkTpSlLevels t = hitStopLoss t) ∨
    (∃ lvl, (lvl = 1 ∨ lvl = 2 ∨ lvl = 3) ∧ lvl ∉ t.hitTpLevels ∧
      checkTpSlLevels t = hitTakeProfit t lvl) ∨
    checkTpSlLevels t = (t, 0) := by
  simp only [checkTpSlLevels]
  split <;> split
  · rename_i hc
    exact .inl ⟨hc.2, rfl⟩
  · split
    · rename_i h3
      exact .inr (.inl ⟨3, by norm_num, h3.2, rfl⟩)
    · split
      · rename_i h2
        exact .inr (.inl ⟨2, by norm_num, h2.2, rfl⟩)
      · split
        · rename_i h1
          exact .inr (.inl ⟨1, by norm_num, h1.2, rfl⟩)
        · exact .inr (.inr rfl)
  · rename_i hc
    exact .inl ⟨hc.2, rfl⟩
  · split
    · rename_i h3
      exact .inr (.inl ⟨3, by norm_num, h3.2, rfl⟩)
    · split
      · rename_i h2
        exact .inr (.inl ⟨2, by norm_num, h2.2, rfl⟩)
      · split
        · rename_i h1
          exact .inr (.inl ⟨1, by norm_num, h1.2, rfl⟩)
        · exact .inr (.inr rfl)

/-- The poll step preserves distinctness of `hit_tp_levels`. -/
theorem pollSignal_nodup (s : TrackedSignal) (price : ℚ) (isExpired : Bool)
    (h : s.hitTpLevels.Nodup) :
    (pollSignal s price isExpired).1.hitTpLevels.Nodup := by
  unfold pollSignal
  obtain ⟨mp, ml, hu⟩ := updateExcursions_eq { s with currentPrice := price }
  have key : ∀ t : TrackedSignal, t.hitTpLevels.Nodup →
      (checkTpSlLevels t).1.hitTpLevels.Nodup := by
    intro t ht
    rcases checkTpSlLevels_hitTpLevels t with he | ⟨lvl, hmem, he⟩
    · rw [he]; exact ht
    · rw [he]
      simp [List.nodup_append, ht, hmem]
  rcases hE : isExpired with _ | _
  · simpa using key _ (by rw [hu]; simpa using h)
  · have := key (updateExcursions { s with currentPrice := price })
      (by rw [hu]; simpa using h)
    simpa [expireSignal] using this

theorem runPolls_nodup (s : TrackedSignal) (polls : List (ℚ × Bool))
    (h : s.hitTpLevels.Nodup) :
    (runPolls s polls).1.hitTpLevels.Nodup := by
  induction polls generalizing s with
  | nil => simpa [runPolls] using h
  | cons p rest ih =>
    rw [runPolls]
    split
    · exact ih _ (pollSignal_nodup s p.1 p.2 h)
    · exact pollSignal_nodup s p.1 p.2 h

/-- A poll step can only produce `STOP_LOSS` status from `ACTIVE` (or
keep a pre-existing `STOP_LOSS` value). -/
theorem pollSignal_status_stopLoss (s : TrackedSignal) (price : ℚ)
    (isExpired : Bool) (hact : s.status ≠ .active) (hsl : s.status ≠ .stopLoss) :
    (pollSignal s price isExpired).1.status ≠ .stopLoss := by
  unfold pollSignal
  have hst : (updateExcursions { s with currentPrice := price }).status = s.status :=
    updateExcursions_status _
  have key : (checkTpSlLevels (updateExcursions { s with currentPrice := price })).1.status ≠
      .stopLoss := by
    rcases checkTpSlLevels_cases (updateExcursions { s with currentPrice := price }) with
      ⟨ha, _⟩ | ⟨lvl, hl, _, he⟩ | he
    · exact absurd (hst ▸ ha) hact
    · rw [he, hitTakeProfit_status]
      rcases hl with rfl | rfl | rfl <;> simp
    · rw [he]
      show (updateExcursions { s with currentPrice := price }).status ≠ .stopLoss
      rw [hst]
      exact hsl
  rcases isExpired with _ | _
  · simpa using key
  · simp [expireSignal]

/-- On a poll whose age check is false, `completed_signals` gains at
most one entry, gains one exactly on the stop-loss / TP3 terminal
transitions, and every such transition does archive. -/
theorem pollSignal_archival (s : TrackedSignal) (price : ℚ) :
    (pollSignal s price false).2 ≤ 1 ∧
    ((pollSignal s price false).2 = 1 →
      (pollSignal s price false).1.status = .stopLoss ∨
      (pollSignal s price false).1.status = .tp3Hit) ∧
    (s.status = .active →
      ((pollSignal s price false).1.status = .stopLoss ∨
        (pollSignal s price false).1.status = .tp3Hit) →
      (pollSignal s price false).2 = 1) := by
  have hpoll : pollSignal s price false =
      checkTpSlLevels (updateExcursions { s with currentPrice := price }) := by
    simp [pollSignal]
  rw [hpoll]
  have hst : (updateExcursions { s with currentPrice := price }).status = s.status :=
    updateExcursions_status _
  rcases checkTpSlLevels_cases (updateExcursions { s with currentPrice := price }) with
    ⟨ha, he⟩ | ⟨lvl, hl, _, he⟩ | he
  · rw [he, hitStopLoss_archives]
    exact ⟨le_refl 1, fun _ => .inl (hitStopLoss_status _), fun _ _ => rfl⟩
  · rw [he, hitTakeProfit_archives, hitTakeProfit_status]
    rcases hl with rfl | rfl | rfl
    · refine ⟨by norm_num, by norm_num, fun _ h => ?_⟩
      rcases h with h | h <;> revert h <;> simp
    · refine ⟨by norm_num, by norm_num, fun _ h => ?_⟩
      rcases h with h | h <;> revert h <;> simp
    · refine ⟨by norm_num, fun _ => ?_, fun _ _ => by norm_num⟩
      norm_num
  · rw [he]
    refine ⟨by norm_num, by norm_num, fun hact hterm => ?_⟩
    exfalso
    have h2 : (updateExcursions { s with currentPrice := price }).status = .active :=
      hst.trans hact
    rcases hterm with hterm | hterm <;>
      (have h3 : (updateExcursions { s with currentPrice := price }).status = _ := hterm
       rw [h2] at h3
       exact absurd h3 (by decide))

/-! ### Claim theorems for the lifecycle tracker -/

/-- Price sequence of the C1 counterexample: TP2 is reached first,
then price retraces into the TP1 band. -/
def c1Prices : List (ℚ × Bool) := [(104.5, false), (102.5, false)]

/-- C1 counterexample: on the spec's LONG example signal, prices
104.5 then 102.5 append level 2 and afterwards level 1, so
`hit_tp_levels = [2, 1]` — not strictly increasing. -/
theorem c1_counterexample :
    (runPolls exampleLongSignal c1Prices).1.hitTpLevels = [2, 1] ∧
    ¬ List.Chain' (· < ·) (runPolls exampleLongSignal c1Prices).1.hitTpLevels := by
  have h : (runPolls exampleLongSignal c1Prices).1.hitTpLevels = [2, 1] := by
    norm_num [c1Prices, runPolls, pollSignal, updateExcursions, checkTpSlLevels,
      hitTakeProfit, hitStopLoss, expireSignal, exampleLongSignal]
  refine ⟨h, ?_⟩
  rw [h]
  simp [List.chain'_cons]

/-- C1 (amended): over any sequence of polls, `hit_tp_levels` never
acquires a duplicate level — each TP level is appended at most once —
though it need not be increasing. -/
theorem c1_hit_tp_levels_nodup (s : TrackedSignal) (polls : List (ℚ × Bool))
    (h : s.hitTpLevels.Nodup) :
    (runPolls s polls).1.hitTpLevels.Nodup :=
  runPolls_nodup s polls h

/-- Witness for `c1_hit_tp_levels_nodup` at the concrete
counterexample run. -/
theorem c1_witness :
    (runPolls exampleLongSignal c1Prices).1.hitTpLevels.Nodup :=
  c1_hit_tp_levels_nodup exampleLongSignal c1Prices (by decide)

/-- C2: once a TP level has been hit (status `TP1_HIT`, `TP2_HIT` or
`TP3_HIT`), no later poll — whatever price it delivers — can move the
signal to `STOP_LOSS`: the stop-loss branch of `_check_tp_sl_levels`
is gated on `status == ACTIVE`. -/
theorem c2_no_stop_after_tp (s : TrackedSignal) (price : ℚ) (isExpired : Bool)
    (h : s.status = .tp1Hit ∨ s.status = .tp2Hit ∨ s.status = .tp3Hit) :
    (pollSignal s price isExpired).1.status ≠ .stopLoss := by
  have hact : s.status ≠ .active := by
    rcases h with h | h | h <;> rw [h] <;> decide
  have hsl : s.status ≠ .stopLoss := by
    rcases h with h | h | h <;> rw [h] <;> decide
  exact pollSignal_status_stopLoss s price isExpired hact hsl

/-- Witness for `c2_no_stop_after_tp`: a LONG signal that already hit
TP1 is polled at price 97, far below its stop of 98, and still does
not end in `STOP_LOSS`. -/
theorem c2_witness :
    (pollSignal { exampleLongSignal with status := .tp1Hit, hitTpLevels := [1] }
      97 false).1.status ≠ .stopLoss :=
  c2_no_stop_after_tp _ 97 false (.inl rfl)

/-- C4 counterexample: a poll in which the LONG example signal is
stopped out (price 97 ≤ stop 98) while the age check is also true
first archives the record with status `STOP_LOSS`, then the expiry
path runs anyway: the already-archived record is mutated to `EXPIRED`
and appended to `completed_signals` a second time. -/
theorem c4_counterexample :
    (checkTpSlLevels (updateExcursions
      { exampleLongSignal with currentPrice := 97 })).1.status = .stopLoss ∧
    (pollSignal exampleLongSignal 97 true).2 = 2 ∧
    (pollSignal exampleLongSignal 97 true).1.status = .expired := by
  refine ⟨?_, ?_, ?_⟩ <;>
    norm_num [pollSignal, updateExcursions, checkTpSlLevels, hitTakeProfit,
      hitStopLoss, expireSignal, exampleLongSignal]

/-- C4 (amended): every terminal transition archives the record
exactly once and removes it from the active set, and an archived
record is never touched by a later poll — with the single exception
the counterexample forces.  In detail: (i) on a poll whose age check
is false, at most one archive happens, exactly on the stop-loss / TP3
terminal transitions, and such a transition from `ACTIVE` always
archives; (ii) on a poll whose age check is true and whose TP/SL
check does not itself archive, the expiry transition archives exactly
once, with final status `EXPIRED`; (iii) once a poll archives the
record, the record leaves the active set and the rest of the poll
sequence never processes it again.  The exception (the
counterexample): a stop-loss or TP3 transition on a poll whose age
check is also true re-archives the just-archived record within the
same poll and mutates it to `EXPIRED`. -/
theorem c4_terminal_archival (s : TrackedSignal) (price : ℚ) :
    ((pollSignal s price false).2 ≤ 1 ∧
     ((pollSignal s price false).2 = 1 →
       (pollSignal s price false).1.status = .stopLoss ∨
       (pollSignal s price false).1.status = .tp3Hit) ∧
     (s.status = .active →
       ((pollSignal s price false).1.status = .stopLoss ∨
         (pollSignal s price false).1.status = .tp3Hit) →
       (pollSignal s price false).2 = 1)) ∧
    ((checkTpSlLevels (updateExcursions { s with currentPrice := price })).2 = 0 →
      (pollSignal s price true).2 = 1 ∧
      (pollSignal s price true).1.status = .expired) ∧
    (∀ (isExpired : Bool) (rest : List (ℚ × Bool)),
      (pollSignal s price isExpired).2 ≠ 0 →
      runPolls s ((price, isExpired) :: rest) = pollSignal s price isExpired) := by
  refine ⟨pollSignal_archival s price, ?_, ?_⟩
  · intro h
    constructor
    · simp [pollSignal, expireSignal, h]
    · simp [pollSignal, expireSignal]
  · intro isExpired rest h
    rw [runPolls, if_neg h]

/-- Witness for `c4_terminal_archival`: the stop-out poll at price 97
with a false age check archives exactly once; the expiry-only poll at
price 101 (no TP or stop level crossed) archives exactly once with
status `EXPIRED`; and after the archiving stop-out poll at 97 the
remaining polls never touch the record. -/
theorem c4_witness :
    (pollSignal exampleLongSignal 97 false).2 = 1 ∧
    ((pollSignal exampleLongSignal 101 true).2 = 1 ∧
      (pollSignal exampleLongSignal 101 true).1.status = .expired) ∧
    runPolls exampleLongSignal [(97, false), (105, false)] =
      pollSignal exampleLongSignal 97 false := by
  refine ⟨?_, ?_, ?_⟩
  · exact (c4_terminal_archival exampleLongSignal 97).1.2.2 rfl
      (.inl (by norm_num [pollSignal, updateExcursions, checkTpSlLevels,
        hitTakeProfit, hitStopLoss, expireSignal, exampleLongSignal]))
  · exact (c4_terminal_archival exampleLongSignal 101).2.1
      (by norm_num [updateExcursions, checkTpSlLevels, hitTakeProfit,
        hitStopLoss, exampleLongSignal])
  · exact (c4_terminal_archival exampleLongSignal 97).2.2 false [(105, false)]
      (by norm_num [pollSignal, updateExcursions, checkTpSlLevels,
        hitTakeProfit, hitStopLoss, expireSignal, exampleLongSignal])

/-- Price sequence of the spec's §8 LONG lifecycle example. -/
def c5Prices : List (ℚ × Bool) :=
  [(100, false), (101, false), (102.5, false), (104.5, false), (106.2, false)]

/-- C5: the LONG example (entry 100, stop 98, TPs 102/104/106) polled
with prices 100, 101, 102.5, 104.5, 106.2 ends with status `TP3_HIT`,
`hit_tp_levels = [1, 2, 3]`, and exactly one archive into
`completed_signals` (the record leaves the active set). -/
theorem c5_long_example_run :
    (runPolls exampleLongSignal c5Prices).1.status = .tp3Hit ∧
    (runPolls exampleLongSignal c5Prices).1.hitTpLevels = [1, 2, 3] ∧
    (runPolls exampleLongSignal c5Prices).2 = 1 := by
  refine ⟨?_, ?_, ?_⟩ <;>
    norm_num [c5Prices, runPolls, pollSignal, updateExcursions, checkTpSlLevels,
      hitTakeProfit, hitStopLoss, expireSignal, exampleLongSignal]

/-! ## Structure analyzer
(`src/strategies/liquidity_sweep_detector.py`) -/

/-- One OHLCV bar.  `open` is a Lean keyword, hence `open'`. -/
structure Candle where
  open' : ℚ
  high : ℚ
  low : ℚ
  close : ℚ
  volume : ℚ
deriving DecidableEq, Repr

/-- Out-of-range placeholder for positional indexing; every index the
detectors use is in range, so its value never matters. -/
def defaultCandle : Candle := ⟨0, 0, 0, 0, 0⟩

/-- The inner window scan of `_find_swing_points` for bar `i`: the bar
is a swing high unless some other bar `j` of the symmetric window has
`high[j] >= high[i]`. -/
def isSwingHighAt (df : List Candle) (lookback i : ℕ) : Bool :=
  (List.range' (i - lookback) (2 * lookback + 1)).all fun j =>
    j = i || decide ((df.getD j defaultCandle).high < (df.getD i defaultCandle).high)

/-- Mirror scan for swing lows: disqualified by `low[j] <= low[i]`. -/
def isSwingLowAt (df : List Candle) (lookback i : ℕ) : Bool :=
  (List.range' (i - lookback) (2 * lookback + 1)).all fun j =>
    j = i || decide ((df.getD i defaultCandle).low < (df.getD j defaultCandle).low)

/-- Bar positions scanned by `_find_swing_points`
(`range(lookback, len(df) - lookback)`) that qualify as swing highs. -/
def swingHighIndices (df : List Candle) (lookback : ℕ) : List ℕ :=
  (List.range' lookback (df.length - 2 * lookback)).filter (isSwingHighAt df lookback)

/-- Swing-low positions of the same scan. -/
def swingLowIndices (df : List Candle) (lookback : ℕ) : List ℕ :=
  (List.range' lookback (df.length - 2 * lookback)).filter (isSwingLowAt df lookback)

/-! ### C6: the swing-point window condition -/

/-- C6 counterexample: eleven bars, lookback 5.  Bars 4 and 5 share
the maximal high 10, so no bar in bar 5's window has a strictly
greater high, yet the scan emits no swing high at all: the `>=`
comparison lets an equal high disqualify. -/
def c6Candles : List Candle :=
  [⟨1, 1, 10, 1, 1⟩, ⟨1, 2, 9, 1, 1⟩, ⟨1, 3, 8, 1, 1⟩, ⟨1, 4, 7, 1, 1⟩,
   ⟨1, 10, 6, 1, 1⟩, ⟨1, 10, 0, 1, 1⟩, ⟨1, 4, 6, 1, 1⟩, ⟨1, 3, 7, 1, 1⟩,
   ⟨1, 2, 8, 1, 1⟩, ⟨1, 1, 9, 1, 1⟩, ⟨1, 1, 10, 1, 1⟩]

theorem c6_counterexample :
    ((List.range c6Candles.length).all fun j =>
      decide ((c6Candles.getD j defaultCandle).high ≤
        (c6Candles.getD 5 defaultCandle).high)) = true ∧
    isSwingHighAt c6Candles 5 5 = false ∧
    swingHighIndices c6Candles 5 = [] := by
  refine ⟨?_, ?_, ?_⟩ <;> decide

theorem isSwingHighAt_iff (df : List Candle) (lookback i : ℕ) (hi : lookback ≤ i) :
    isSwingHighAt df lookback i = true ↔
      ∀ j, i - lookback ≤ j → j ≤ i + lookback → j ≠ i →
        (df.getD j defaultCandle).high < (df.getD i defaultCandle).high := by
  unfold isSwingHighAt
  rw [List.all_eq_true]
  constructor
  · intro h j hj1 hj2 hne
    have hmem : j ∈ List.range' (i - lookback) (2 * lookback + 1) := by
      rw [List.mem_range'_1]
      exact ⟨hj1, by omega⟩
    have hj := h j hmem
    simp only [Bool.or_eq_true, decide_eq_true_eq] at hj
    rcases hj with hj | hj
    · exact absurd hj hne
    · exact hj
  · intro h j hmem
    rw [List.mem_range'_1] at hmem
    by_cases hji : j = i
    · simp [hji]
    · simp only [Bool.or_eq_true, decide_eq_true_eq]
      exact .inr (h j hmem.1 (by omega) hji)

theorem isSwingLowAt_iff (df : List Candle) (lookback i : ℕ) (hi : lookback ≤ i) :
    isSwingLowAt df lookback i = true ↔
      ∀ j, i - lookback ≤ j → j ≤ i + lookback → j ≠ i →
        (df.getD i defaultCandle).low < (df.getD j defaultCandle).low := by
  unfold isSwingLowAt
  rw [List.all_eq_true]
  constructor
  · intro h j hj1 hj2 hne
    have hmem : j ∈ List.range' (i - lookback) (2 * lookback + 1) := by
      rw [List.mem_range'_1]
      exact ⟨hj1, by omega⟩
    have hj := h j hmem
    simp only [Bool.or_eq_true, decide_eq_true_eq] at hj
    rcases hj with hj | hj
    · exact absurd hj hne
    · exact hj
  · intro h j hmem
    rw [List.mem_range'_1] at hmem
    by_cases hji : j = i
    · simp [hji]
    · simp only [Bool.or_eq_true, decide_eq_true_eq]
      exact .inr (h j hmem.1 (by omega) hji)

/-- C6 (amended): the scan emits bar `i` as a swing high iff `i` is at
least `lookback` bars from each end and every *other* bar of the
symmetric window has a strictly smaller high — an equal high in the
window disqualifies the bar (the code compares with `>=`), contrary to
the claim's "merely equaled is still a swing high".  Mirror condition
for swing lows. -/
theorem c6_swing_window_condition (df : List Candle) (lookback i : ℕ) :
    (i ∈ swingHighIndices df lookback ↔
      lookback ≤ i ∧ i + lookback < df.length ∧
        ∀ j, i - lookback ≤ j → j ≤ i + lookback → j ≠ i →
          (df.getD j defaultCandle).high < (df.getD i defaultCandle).high) ∧
    (i ∈ swingLowIndices df lookback ↔
      lookback ≤ i ∧ i + lookback < df.length ∧
        ∀ j, i - lookback ≤ j → j ≤ i + lookback → j ≠ i →
          (df.getD i defaultCandle).low < (df.getD j defaultCandle).low) := by
  constructor
  · unfold swingHighIndices
    rw [List.mem_filter, List.mem_range'_1]
    constructor
    · rintro ⟨⟨h1, h2⟩, h3⟩
      exact ⟨h1, by omega, (isSwingHighAt_iff df lookback i h1).1 h3⟩
    · rintro ⟨h1, h2, h3⟩
      exact ⟨⟨h1, by omega⟩, (isSwingHighAt_iff df lookback i h1).2 h3⟩
  · unfold swingLowIndices
    rw [List.mem_filter, List.mem_range'_1]
    constructor
    · rintro ⟨⟨h1, h2⟩, h3⟩
      exact ⟨h1, by omega, (isSwingLowAt_iff df lookback i h1).1 h3⟩
    · rintro ⟨h1, h2, h3⟩
      exact ⟨⟨h1, by omega⟩, (isSwingLowAt_iff df lookback i h1).2 h3⟩

/-- Witness for `c6_swing_window_condition`: bar 5 of the
counterexample series is a swing *low* (its low 5 is the strict
minimum of its window), and the theorem's reverse direction certifies
the membership. -/
theorem c6_witness : 5 ∈ swingLowIndices c6Candles 5 :=
  (c6_swing_window_condition c6Candles 5 5).2.2
    ⟨by decide, by decide, by decide⟩

/-! ### Swing-point records and the sweep / CHoCH / BOS passes -/

/-- Swing-point dict produced by `_find_swing_points` (`price`,
`index`/`timestamp`, `tested`, `swept`), together with the `broken`
key that `_detect_choch`/`_detect_bos` add dynamically (a missing key
reads as false via `.get('broken', False)`).  The bar position serves
as the timestamp, as in the detector's integer-indexed frame. -/
structure SwingPt where
  price : ℚ
  idx : ℕ
  tested : Bool
  swept : Bool
  broken : Bool
deriving DecidableEq, Repr

/-- Placeholder for out-of-range positional access.  Both consumption
flags are set, so an out-of-range index can never emit anything; every
index the passes select is in range, so the values are irrelevant. -/
def defaultSwingPt : SwingPt := ⟨0, 0, true, true, true⟩

/-- `_find_swing_points`: swing records for the qualifying bars with
fresh flags, keeping the most recent 10 per side (`[-10:]`; the sort
by timestamp is the identity since bars are scanned oldest first). -/
def findSwingPoints (df : List Candle) (lookback : ℕ) :
    List SwingPt × List SwingPt :=
  let highs := (swingHighIndices df lookback).map fun i =>
    ⟨(df.getD i defaultCandle).high, i, false, false, false⟩
  let lows := (swingLowIndices df lookback).map fun i =>
    ⟨(df.getD i defaultCandle).low, i, false, false, false⟩
  (highs.drop (highs.length - 10), lows.drop (lows.length - 10))

/-- `_calculate_sweep_strength` (0–100 rubric: penetration depth vs
body 40, wick/body ratio 30, same-candle rejection 30).  `isHigh`
stands for the `'high'`/`'low'` sweep-type string. -/
def calculateSweepStrength (c : Candle) (spPrice : ℚ) (isHigh : Bool) : ℚ :=
  let penetration := if isHigh then c.high - spPrice else spPrice - c.low
  let wickSize := if isHigh then c.high - max c.open' c.close
    else min c.open' c.close - c.low
  let bodySize := |c.close - c.open'|
  let s1 : ℚ :=
    if bodySize * (1/2) < penetration then 40
    else if bodySize * (3/10) < penetration then 30
    else if bodySize * (1/10) < penetration then 20
    else 0
  let s2 : ℚ :=
    if 0 < bodySize then
      if 2 < wickSize / bodySize then 30
      else if (3/2 : ℚ) < wickSize / bodySize then 20
      else if 1 < wickSize / bodySize then 15
      else 0
    else 0
  let rejection := if isHigh then (c.high - c.close) / (c.high - c.low)
    else (c.close - c.low) / (c.high - c.low)
  let s3 : ℚ :=
    if (7/10 : ℚ) < rejection then 30
    else if (1/2 : ℚ) < rejection then 20
    else if (3/10 : ℚ) < rejection then 10
    else 0
  min (s1 + s2 + s3) 100

/-- Sweep kind (`'high_sweep'` / `'low_sweep'`). -/
inductive SweepKind where
  | highSweep
  | lowSweep
deriving DecidableEq, Repr

/-- A `LiquiditySweep` record; `swingIdx` is the identity of the
referenced swing-point object — its position in the highs (for a high
sweep) or lows (for a low sweep) list. -/
structure Sweep where
  kind : SweepKind
  timestamp : ℕ
  sweepPrice : ℚ
  liquidityLevel : ℚ
  candleClose : ℚ
  strength : ℚ
  swingIdx : ℕ
deriving DecidableEq, Repr

/-- The inner `for swing_high in swing_points['highs']` loop of
`_detect_liquidity_sweeps` for one candle: every unswept swing high
older than the candle whose level the wick pierces
(`high > price`) while the close reverts below (`close < price`)
emits one sweep and is marked swept.  `k` is the position of the first
list element within the whole highs list. -/
def sweepHighsGo (t : ℕ) (c : Candle) : ℕ → List SwingPt → List SwingPt × List Sweep
  | _, [] => ([], [])
  | k, sp :: rest =>
    let r := sweepHighsGo t c (k + 1) rest
    if sp.swept = false ∧ sp.idx < t ∧ sp.price < c.high ∧ c.close < sp.price then
      ({ sp with swept := true } :: r.1,
        ⟨.highSweep, t, c.high, sp.price, c.close,
          calculateSweepStrength c sp.price true, k⟩ :: r.2)
    else (sp :: r.1, r.2)

/-- Mirror loop over the swing lows (`low < price`, `close > price`). -/
def sweepLowsGo (t : ℕ) (c : Candle) : ℕ → List SwingPt → List SwingPt × List Sweep
  | _, [] => ([], [])
  | k, sp :: rest =>
    let r := sweepLowsGo t c (k + 1) rest
    if sp.swept = false ∧ sp.idx < t ∧ c.low < sp.price ∧ sp.price < c.close then
      ({ sp with swept := true } :: r.1,
        ⟨.lowSweep, t, c.low, sp.price, c.close,
          calculateSweepStrength c sp.price false, k⟩ :: r.2)
    else (sp :: r.1, r.2)

/-- One candle of the sweep scan: the highs loop, then the lows loop,
appending the new sweeps. -/
def sweepScanStep (st : (List SwingPt × List SwingPt) × List Sweep)
    (tc : ℕ × Candle) : (List SwingPt × List SwingPt) × List Sweep :=
  let rh := sweepHighsGo tc.1 tc.2 0 st.1.1
  let rl := sweepLowsGo tc.1 tc.2 0 st.1.2
  ((rh.1, rl.1), st.2 ++ rh.2 ++ rl.2)

/-- `_detect_liquidity_sweeps`: scan the last 20 candles (with their
original positions as timestamps), then sort the sweeps by strength,
strongest first. -/
def detectLiquiditySweeps (df : List Candle) (highs lows : List SwingPt) :
    (List SwingPt × List SwingPt) × List Sweep :=
  let r := (df.enum.drop (df.length - 20)).foldl sweepScanStep ((highs, lows), [])
  (r.1, r.2.mergeSort fun a b => decide (b.strength ≤ a.strength))

/-- Structure-event kind. -/
inductive StructKind where
  | bullishChoch
  | bearishChoch
  | bullishBos
  | bearishBos
deriving DecidableEq, Repr

/-- Which swing list the event's broken swing point lives in: bullish
events break swing *highs*, bearish events break swing *lows*. -/
def StructKind.refsHighs : StructKind → Bool
  | .bullishChoch => true
  | .bearishChoch => false
  | .bullishBos => true
  | .bearishBos => false

/-- A CHoCH/BOS record; `swingIdx` identifies the broken swing-point
object by its position in the highs or lows list (per `refsHighs`). -/
structure StructEvent where
  kind : StructKind
  timestamp : ℕ
  breakPrice : ℚ
  brokenLevel : ℚ
  strength : ℚ
  swingIdx : ℕ
deriving DecidableEq, Repr

/-- `_calculate_choch_strength` (penetration 50, candle body ratio 30,
volume placeholder +10, capped at 100). -/
def calculateChochStrength (c : Candle) (spPrice : ℚ) (isBullish : Bool) : ℚ :=
  let penetration := if isBullish then c.close - spPrice else spPrice - c.close
  let bodySize := |c.close - c.open'|
  let s1 : ℚ :=
    if bodySize < penetration then 50
    else if bodySize * (1/2) < penetration then 35
    else if bodySize * (1/5) < penetration then 25
    else 0
  let s2 : ℚ :=
    if 0 < bodySize then
      let totalRange := c.high - c.low
      let bodyRatio := if 0 < totalRange then bodySize / totalRange else 0
      if (7/10 : ℚ) < bodyRatio then 30
      else if (1/2 : ℚ) < bodyRatio then 20
      else if (3/10 : ℚ) < bodyRatio then 10
      else 0
    else 0
  min (s1 + s2 + 10) 100

/-- `_calculate_bos_strength`: the CHoCH rubric with a 20% bonus,
capped at 100. -/
def calculateBosStrength (c : Candle) (spPrice : ℚ) (isBullish : Bool) : ℚ :=
  min (calculateChochStrength c spPrice isBullish * (6/5)) 100

/-- `_get_recent_lower_high`: walk from the most recent swing high
backwards and return the position of the first one strictly below its
predecessor (the sort by timestamp is the identity). -/
def recentLowerHighIdx (hs : List SwingPt) : Option ℕ :=
  if hs.length < 2 then none
  else ((List.range' 1 (hs.length - 1)).reverse).find? fun i =>
    decide ((hs.getD i defaultSwingPt).price < (hs.getD (i - 1) defaultSwingPt).price)

/-- `_get_recent_higher_low`. -/
def recentHigherLowIdx (ls : List SwingPt) : Option ℕ :=
  if ls.length < 2 then none
  else ((List.range' 1 (ls.length - 1)).reverse).find? fun i =>
    decide ((ls.getD (i - 1) defaultSwingPt).price < (ls.getD i defaultSwingPt).price)

/-- `_get_recent_higher_high`. -/
def recentHigherHighIdx (hs : List SwingPt) : Option ℕ :=
  if hs.length < 2 then none
  else ((List.range' 1 (hs.length - 1)).reverse).find? fun i =>
    decide ((hs.getD (i - 1) defaultSwingPt).price < (hs.getD i defaultSwingPt).price)

/-- `_get_recent_lower_low`. -/
def recentLowerLowIdx (ls : List SwingPt) : Option ℕ :=
  if ls.length < 2 then none
  else ((List.range' 1 (ls.length - 1)).reverse).find? fun i =>
    decide ((ls.getD i defaultSwingPt).price < (ls.getD (i - 1) defaultSwingPt).price)

/-- Mark the swing point at position `k` as broken
(`swing['broken'] = True`). -/
def setBroken (hs : List SwingPt) (k : ℕ) : List SwingPt :=
  hs.set k { hs.getD k defaultSwingPt with broken := true }

/-- Shared shape of the four CHoCH/BOS emission sites: if a swing was
selected, its level is crossed (`fire`), and it is not yet broken,
emit one event and set the `broken` flag. -/
def breakAttempt (hs : List SwingPt) (selected : Option ℕ) (fire : SwingPt → Bool)
    (mk : ℕ → SwingPt → StructEvent) : List SwingPt × List StructEvent :=
  match selected with
  | none => (hs, [])
  | some k =>
    let sp := hs.getD k defaultSwingPt
    if fire sp = true ∧ sp.broken = false then (setBroken hs k, [mk k sp])
    else (hs, [])

/-- One candle of `_detect_choch`: bullish CHoCH against the most
recent lower high, bearish CHoCH against the most recent higher low. -/
def chochStep (t : ℕ) (c : Candle)
    (st : (List SwingPt × List SwingPt) × List StructEvent) :
    (List SwingPt × List SwingPt) × List StructEvent :=
  let rh := breakAttempt st.1.1 (recentLowerHighIdx st.1.1)
    (fun sp => decide (sp.price < c.close))
    (fun k sp => ⟨.bullishChoch, t, c.close, sp.price,
      calculateChochStrength c sp.price true, k⟩)
  let rl := breakAttempt st.1.2 (recentHigherLowIdx st.1.2)
    (fun sp => decide (c.close < sp.price))
    (fun k sp => ⟨.bearishChoch, t, c.close, sp.price,
      calculateChochStrength c sp.price false, k⟩)
  ((rh.1, rl.1), st.2 ++ rh.2 ++ rl.2)

/-- `_detect_choch`: scan the last 10 candles. -/
def detectChoch (df : List Candle) (highs lows : List SwingPt) :
    (List SwingPt × List SwingPt) × List StructEvent :=
  (df.enum.drop (df.length - 10)).foldl (fun st tc => chochStep tc.1 tc.2 st)
    ((highs, lows), [])

/-- One candle of `_detect_bos`: bullish BOS against the most recent
higher high, bearish BOS against the most recent lower low. -/
def bosStep (t : ℕ) (c : Candle)
    (st : (List SwingPt × List SwingPt) × List StructEvent) :
    (List SwingPt × List SwingPt) × List StructEvent :=
  let rh := breakAttempt st.1.1 (recentHigherHighIdx st.1.1)
    (fun sp => decide (sp.price < c.close))
    (fun k sp => ⟨.bullishBos, t, c.close, sp.price,
      calculateBosStrength c sp.price true, k⟩)
  let rl := breakAttempt st.1.2 (recentLowerLowIdx st.1.2)
    (fun sp => decide (c.close < sp.price))
    (fun k sp => ⟨.bearishBos, t, c.close, sp.price,
      calculateBosStrength c sp.price false, k⟩)
  ((rh.1, rl.1), st.2 ++ rh.2 ++ rl.2)

/-- `_detect_bos`: scan the last 10 candles (with the `broken` flags
left by the CHoCH pass). -/
def detectBos (df : List Candle) (highs lows : List SwingPt) :
    (List SwingPt × List SwingPt) × List StructEvent :=
  (df.enum.drop (df.length - 10)).foldl (fun st tc => bosStep tc.1 tc.2 st)
    ((highs, lows), [])

/-- Overall market-structure label. -/
inductive MarketBias where
  | bullish
  | bearish
  | ranging
  | neutral
deriving DecidableEq, Repr

/-- `_determine_market_structure`: compare the two most recent swing
highs and lows. -/
def determineMarketStructure (highs lows : List SwingPt) : MarketBias :=
  if highs.length < 2 ∨ lows.length < 2 then .neutral
  else
    let h0 := (highs.getD (highs.length - 2) defaultSwingPt).price
    let h1 := (highs.getD (highs.length - 1) defaultSwingPt).price
    let l0 := (lows.getD (lows.length - 2) defaultSwingPt).price
    let l1 := (lows.getD (lows.length - 1) defaultSwingPt).price
    if h0 < h1 ∧ l0 < l1 then .bullish
    else if l1 < l0 ∧ h1 < h0 then .bearish
    else .ranging

/-- Result dict of `detect_market_structure`. -/
structure MarketStructureResult where
  swingHighs : List SwingPt
  swingLows : List SwingPt
  liquiditySweeps : List Sweep
  chochSignals : List StructEvent
  bosSignals : List StructEvent
  marketStructure : MarketBias
deriving DecidableEq, Repr

/-- `detect_market_structure`: one full detection pass — swing points,
then (when at least two of each) sweeps, CHoCH, BOS and the bias, all
sharing the same mutable swing-point records. -/
def detectMarketStructure (df : List Candle) : MarketStructureResult :=
  let sw := findSwingPoints df 5
  if 2 ≤ sw.1.length ∧ 2 ≤ sw.2.length then
    let r1 := detectLiquiditySweeps df sw.1 sw.2
    let r2 := detectChoch df r1.1.1 r1.1.2
    let r3 := detectBos df r2.1.1 r2.1.2
    ⟨r3.1.1, r3.1.2, r1.2, r2.2, r3.2, determineMarketStructure r3.1.1 r3.1.2⟩
  else
    ⟨sw.1, sw.2, [], [], [], .neutral⟩

/-! ### C8: each swing point is consumed at most once per pass -/

/-- Number of sweeps in `out` referencing swing point `k` of the given
side's list. -/
def swCount (out : List Sweep) (kind : SweepKind) (k : ℕ) : ℕ :=
  out.countP fun sw => decide (sw.kind = kind ∧ sw.swingIdx = k)

/-- 1 when the swing point at position `j` is already swept (an
out-of-range position counts as swept and can never emit). -/
def sweptBound (hs : List SwingPt) (j : ℕ) : ℕ :=
  if (hs.getD j defaultSwingPt).swept = true then 1 else 0

theorem sweepHighsGo_bound (t : ℕ) (c : Candle) (hs : List SwingPt) :
    ∀ (k0 : ℕ),
      (∀ j, sweptBound hs j ≤ sweptBound (sweepHighsGo t c k0 hs).1 j) ∧
      (∀ j, swCount (sweepHighsGo t c k0 hs).2 .highSweep (k0 + j) + sweptBound hs j ≤
          sweptBound (sweepHighsGo t c k0 hs).1 j) ∧
      (∀ m, m < k0 → swCount (sweepHighsGo t c k0 hs).2 .highSweep m = 0) ∧
      (∀ kind m, kind ≠ SweepKind.highSweep →
        swCount (sweepHighsGo t c k0 hs).2 kind m = 0) := by
  induction hs with
  | nil =>
    intro k0
    refine ⟨fun j => le_refl _, fun j => ?_, fun m _ => rfl, fun kind m _ => rfl⟩
    simp [sweepHighsGo, swCount, sweptBound, defaultSwingPt]
  | cons sp rest ih =>
    intro k0
    obtain ⟨ih1, ih2, ih3, ih4⟩ := ih (k0 + 1)
    simp only [sweepHighsGo]
    split
    case isTrue hcond =>
      refine ⟨?_, ?_, ?_, ?_⟩
      · intro j
        cases j with
        | zero => simp [sweptBound, hcond.1]
        | succ j => simpa [sweptBound] using ih1 j
      · intro j
        cases j with
        | zero =>
          have h0 : swCount (sweepHighsGo t c (k0 + 1) rest).2 .highSweep k0 = 0 :=
            ih3 k0 (by omega)
          simp only [Nat.add_zero, swCount, List.countP_cons, sweptBound,
            List.getD_cons_zero] at h0 ⊢
          simp [hcond.1]
          rw [List.countP_eq_zero] at h0
          intro a ha hk hidx
          exact absurd (And.intro hk hidx) (by simpa using h0 a ha)
        | succ j =>
          have harith : k0 + (j + 1) = k0 + 1 + j := by omega
          rw [harith]
          have hne0 : ¬ (k0 = k0 + 1 + j) := by omega
          have h2 := ih2 j
          simp only [swCount, List.countP_cons, sweptBound, List.getD_cons_succ] at h2 ⊢
          simpa [hne0] using h2
      · intro m hm
        have hne : ¬ (k0 = m) := by omega
        have h3 := ih3 m (by omega)
        simp only [swCount, List.countP_cons] at h3 ⊢
        simpa [hne] using h3
      · intro kind m hk
        have h4 := ih4 kind m hk
        simp only [swCount, List.countP_cons] at h4 ⊢
        simpa [Ne.symm hk] using h4
    case isFalse hcond =>
      refine ⟨?_, ?_, ?_, ?_⟩
      · intro j
        cases j with
        | zero => simp [sweptBound]
        | succ j => simpa [sweptBound] using ih1 j
      · intro j
        cases j with
        | zero =>
          have h0 : swCount (sweepHighsGo t c (k0 + 1) rest).2 .highSweep k0 = 0 :=
            ih3 k0 (by omega)
          simp only [Nat.add_zero]
          simp only [swCount] at h0 ⊢
          rw [h0]
          simp [sweptBound]
        | succ j =>
          have harith : k0 + (j + 1) = (k0 + 1) + j := by omega
          have h2 := ih2 j
          simp only [swCount, sweptBound, List.getD_cons_succ] at h2 ⊢
          rw [harith]
          exact h2
      · intro m hm
        exact ih3 m (by omega)
      · intro kind m hk
        exact ih4 kind m hk

theorem sweepLowsGo_bound (t : ℕ) (c : Candle) (ls : List SwingPt) :
    ∀ (k0 : ℕ),
      (∀ j, sweptBound ls j ≤ sweptBound (sweepLowsGo t c k0 ls).1 j) ∧
      (∀ j, swCount (sweepLowsGo t c k0 ls).2 .lowSweep (k0 + j) + sweptBound ls j ≤
          sweptBound (sweepLowsGo t c k0 ls).1 j) ∧
      (∀ m, m < k0 → swCount (sweepLowsGo t c k0 ls).2 .lowSweep m = 0) ∧
      (∀ kind m, kind ≠ SweepKind.lowSweep →
        swCount (sweepLowsGo t c k0 ls).2 kind m = 0) := by
  induction ls with
  | nil =>
    intro k0
    refine ⟨fun j => le_refl _, fun j => ?_, fun m _ => rfl, fun kind m _ => rfl⟩
    simp [sweepLowsGo, swCount, sweptBound, defaultSwingPt]
  | cons sp rest ih =>
    intro k0
    obtain ⟨ih1, ih2, ih3, ih4⟩ := ih (k0 + 1)
    simp only [sweepLowsGo]
    split
    case isTrue hcond =>
      refine ⟨?_, ?_, ?_, ?_⟩
      · intro j
        cases j with
        | zero => simp [sweptBound, hcond.1]
        | succ j => simpa [sweptBound] using ih1 j
      · intro j
        cases j with
        | zero =>
          have h0 : swCount (sweepLowsGo t c (k0 + 1) rest).2 .lowSweep k0 = 0 :=
            ih3 k0 (by omega)
          simp only [Nat.add_zero, swCount, List.countP_cons, sweptBound,
            List.getD_cons_zero] at h0 ⊢
          simp [hcond.1]
          rw [List.countP_eq_zero] at h0
          intro a ha hk hidx
          exact absurd (And.intro hk hidx) (by simpa using h0 a ha)
        | succ j =>
          have harith : k0 + (j + 1) = k0 + 1 + j := by omega
          rw [harith]
          have hne0 : ¬ (k0 = k0 + 1 + j) := by omega
          have h2 := ih2 j
          simp only [swCount, List.countP_cons, sweptBound, List.getD_cons_succ] at h2 ⊢
          simpa [hne0] using h2
      · intro m hm
        have hne : ¬ (k0 = m) := by omega
        have h3 := ih3 m (by omega)
        simp only [swCount, List.countP_cons] at h3 ⊢
        simpa [hne] using h3
      · intro kind m hk
        have h4 := ih4 kind m hk
        simp only [swCount, List.countP_cons] at h4 ⊢
        simpa [Ne.symm hk] using h4
    case isFalse hcond =>
      refine ⟨?_, ?_, ?_, ?_⟩
      · intro j
        cases j with
        | zero => simp [sweptBound]
        | succ j => simpa [sweptBound] using ih1 j
      · intro j
        cases j with
        | zero =>
          have h0 : swCount (sweepLowsGo t c (k0 + 1) rest).2 .lowSweep k0 = 0 :=
            ih3 k0 (by omega)
          simp only [Nat.add_zero]
          simp only [swCount] at h0 ⊢
          rw [h0]
          simp [sweptBound]
        | succ j =>
          have harith : k0 + (j + 1) = (k0 + 1) + j := by omega
          have h2 := ih2 j
          simp only [swCount, sweptBound, List.getD_cons_succ] at h2 ⊢
          rw [harith]
          exact h2
      · intro m hm
        exact ih3 m (by omega)
      · intro kind m hk
        exact ih4 kind m hk

/-- One candle of the sweep scan can only flip flags and add sweeps:
the running total plus the entry bound never exceeds the exit bound. -/
theorem sweepScanStep_bound (st : (List SwingPt × List SwingPt) × List Sweep)
    (tc : ℕ × Candle) (k : ℕ) :
    (swCount (sweepScanStep st tc).2 .highSweep k + sweptBound st.1.1 k ≤
      swCount st.2 .highSweep k + sweptBound (sweepScanStep st tc).1.1 k) ∧
    (swCount (sweepScanStep st tc).2 .lowSweep k + sweptBound st.1.2 k ≤
      swCount st.2 .lowSweep k + sweptBound (sweepScanStep st tc).1.2 k) := by
  obtain ⟨hg1, hg2, hg3, hg4⟩ := sweepHighsGo_bound tc.1 tc.2 st.1.1 0
  obtain ⟨hl1, hl2, hl3, hl4⟩ := sweepLowsGo_bound tc.1 tc.2 st.1.2 0
  have hgk := hg2 k
  have hlk := hl2 k
  have hgz : swCount (sweepLowsGo tc.1 tc.2 0 st.1.2).2 .highSweep k = 0 :=
    hl4 .highSweep k (by decide)
  have hlz : swCount (sweepHighsGo tc.1 tc.2 0 st.1.1).2 .lowSweep k = 0 :=
    hg4 .lowSweep k (by decide)
  simp only [Nat.zero_add] at hgk hlk
  constructor
  · simp only [sweepScanStep, swCount, List.countP_append]
    simp only [swCount] at hgk hgz
    omega
  · simp only [sweepScanStep, swCount, List.countP_append]
    simp only [swCount] at hlk hlz
    omega

/-- Additive invariant of the sweep scan over any candle list. -/
theorem sweepScan_fold_bound (candles : List (ℕ × Candle)) :
    ∀ (st : (List SwingPt × List SwingPt) × List Sweep) (k : ℕ),
      (swCount (candles.foldl sweepScanStep st).2 .highSweep k + sweptBound st.1.1 k ≤
        swCount st.2 .highSweep k +
          sweptBound (candles.foldl sweepScanStep st).1.1 k) ∧
      (swCount (candles.foldl sweepScanStep st).2 .lowSweep k + sweptBound st.1.2 k ≤
        swCount st.2 .lowSweep k +
          sweptBound (candles.foldl sweepScanStep st).1.2 k) := by
  induction candles with
  | nil => exact fun st k => ⟨le_refl _, le_refl _⟩
  | cons tc rest ih =>
    intro st k
    simp only [List.foldl_cons]
    obtain ⟨s1, s2⟩ := sweepScanStep_bound st tc k
    obtain ⟨i1, i2⟩ := ih (sweepScanStep st tc) k
    exact ⟨by omega, by omega⟩

/-- Per pass, each swing point is referenced by at most one sweep. -/
theorem detectLiquiditySweeps_once (df : List Candle) (highs lows : List SwingPt)
    (kind : SweepKind) (k : ℕ) :
    swCount (detectLiquiditySweeps df highs lows).2 kind k ≤ 1 := by
  unfold detectLiquiditySweeps
  simp only
  rw [swCount, List.Perm.countP_eq _ (List.mergeSort_perm _ _)]
  obtain ⟨h1, h2⟩ := sweepScan_fold_bound (df.enum.drop (df.length - 20))
    ((highs, lows), []) k
  have hb1 : sweptBound ((df.enum.drop (df.length - 20)).foldl sweepScanStep
      ((highs, lows), [])).1.1 k ≤ 1 := by
    unfold sweptBound
    split <;> omega
  have hb2 : sweptBound ((df.enum.drop (df.length - 20)).foldl sweepScanStep
      ((highs, lows), [])).1.2 k ≤ 1 := by
    unfold sweptBound
    split <;> omega
  have hz : ∀ kd kk, swCount ([] : List Sweep) kd kk = 0 := fun _ _ => rfl
  cases kind with
  | highSweep =>
    have := hz .highSweep k
    simp only [swCount] at h1 this ⊢
    omega
  | lowSweep =>
    have := hz .lowSweep k
    simp only [swCount] at h2 this ⊢
    omega

/-- Number of CHoCH/BOS events referencing swing point `k` of the
highs (`side = true`) or lows (`side = false`) list. -/
def evCount (evs : List StructEvent) (side : Bool) (k : ℕ) : ℕ :=
  evs.countP fun e => decide (e.kind.refsHighs = side ∧ e.swingIdx = k)

/-- 1 when the swing point at position `j` is already broken (an
out-of-range position counts as broken and can never emit). -/
def brokenBound (hs : List SwingPt) (j : ℕ) : ℕ :=
  if (hs.getD j defaultSwingPt).broken = true then 1 else 0

theorem setBroken_getD_self (hs : List SwingPt) (k : ℕ) :
    ((setBroken hs k).getD k defaultSwingPt).broken = true := by
  unfold setBroken
  by_cases hk : k < hs.length
  · rw [List.getD_eq_getElem?_getD, List.getElem?_set_self hk]
    rfl
  · rw [List.set_eq_of_length_le (by omega)]
    rw [List.getD_eq_getElem?_getD, List.getElem?_eq_none (by omega)]
    rfl

theorem setBroken_getD_ne (hs : List SwingPt) (k j : ℕ) (h : j ≠ k) :
    (setBroken hs k).getD j defaultSwingPt = hs.getD j defaultSwingPt := by
  unfold setBroken
  rw [List.getD_eq_getElem?_getD, List.getElem?_set_ne (Ne.symm h),
    ← List.getD_eq_getElem?_getD]

/-- A break attempt adds at most one event, at the selected index,
only if that swing was unbroken — and it then marks it broken. -/
theorem breakAttempt_bound (hs : List SwingPt) (sel : Option ℕ)
    (fire : SwingPt → Bool) (mk : ℕ → SwingPt → StructEvent) (side : Bool)
    (hmk : ∀ k sp, (mk k sp).swingIdx = k ∧ (mk k sp).kind.refsHighs = side)
    (j : ℕ) :
    (evCount (breakAttempt hs sel fire mk).2 side j + brokenBound hs j ≤
      brokenBound (breakAttempt hs sel fire mk).1 j) ∧
    (∀ s2, s2 ≠ side → evCount (breakAttempt hs sel fire mk).2 s2 j = 0) := by
  unfold breakAttempt
  cases sel with
  | none => exact ⟨by simp [evCount], fun s2 _ => rfl⟩
  | some k =>
    dsimp only
    split
    case isTrue hc =>
      by_cases hjk : j = k
      · subst hjk
        constructor
        · have hold : brokenBound hs j = 0 := by
            unfold brokenBound
            rw [hc.2]
            rfl
          have hnew : brokenBound (setBroken hs j) j = 1 := by
            unfold brokenBound
            rw [setBroken_getD_self]
            rfl
          rw [hold, hnew]
          simp [evCount, List.countP_cons, (hmk j _).1, (hmk j _).2]
        · intro s2 hs2
          simp [evCount, List.countP_cons, (hmk j _).2, Ne.symm hs2]
      · constructor
        · have hsame : brokenBound (setBroken hs k) j = brokenBound hs j := by
            unfold brokenBound
            rw [setBroken_getD_ne hs k j hjk]
          rw [hsame]
          have : evCount [mk k (hs.getD k defaultSwingPt)] side j = 0 := by
            simp [evCount, List.countP_cons, (hmk k _).1, hjk]
            exact fun _ => Ne.symm hjk
          rw [this]
          omega
        · intro s2 hs2
          simp [evCount, List.countP_cons, (hmk k _).2, Ne.symm hs2]
    case isFalse =>
      exact ⟨by simp [evCount], fun s2 _ => rfl⟩

theorem chochStep_bound (t : ℕ) (c : Candle)
    (st : (List SwingPt × List SwingPt) × List StructEvent) (k : ℕ) :
    (evCount (chochStep t c st).2 true k + brokenBound st.1.1 k ≤
      evCount st.2 true k + brokenBound (chochStep t c st).1.1 k) ∧
    (evCount (chochStep t c st).2 false k + brokenBound st.1.2 k ≤
      evCount st.2 false k + brokenBound (chochStep t c st).1.2 k) := by
  obtain ⟨hh1, hh2⟩ := breakAttempt_bound st.1.1 (recentLowerHighIdx st.1.1)
    (fun sp => decide (sp.price < c.close))
    (fun k sp => ⟨.bullishChoch, t, c.close, sp.price,
      calculateChochStrength c sp.price true, k⟩) true (fun _ _ => ⟨rfl, rfl⟩) k
  obtain ⟨hl1, hl2⟩ := breakAttempt_bound st.1.2 (recentHigherLowIdx st.1.2)
    (fun sp => decide (c.close < sp.price))
    (fun k sp => ⟨.bearishChoch, t, c.close, sp.price,
      calculateChochStrength c sp.price false, k⟩) false (fun _ _ => ⟨rfl, rfl⟩) k
  have hz1 := hl2 true (by decide)
  have hz2 := hh2 false (by decide)
  constructor
  · simp only [chochStep, evCount, List.countP_append]
    simp only [evCount] at hh1 hz1
    omega
  · simp only [chochStep, evCount, List.countP_append]
    simp only [evCount] at hl1 hz2
    omega

theorem bosStep_bound (t : ℕ) (c : Candle)
    (st : (List SwingPt × List SwingPt) × List StructEvent) (k : ℕ) :
    (evCount (bosStep t c st).2 true k + brokenBound st.1.1 k ≤
      evCount st.2 true k + brokenBound (bosStep t c st).1.1 k) ∧
    (evCount (bosStep t c st).2 false k + brokenBound st.1.2 k ≤
      evCount st.2 false k + brokenBound (bosStep t c st).1.2 k) := by
  obtain ⟨hh1, hh2⟩ := breakAttempt_bound st.1.1 (recentHigherHighIdx st.1.1)
    (fun sp => decide (sp.price < c.close))
    (fun k sp => ⟨.bullishBos, t, c.close, sp.price,
      calculateBosStrength c sp.price true, k⟩) true (fun _ _ => ⟨rfl, rfl⟩) k
  obtain ⟨hl1, hl2⟩ := breakAttempt_bound st.1.2 (recentLowerLowIdx st.1.2)
    (fun sp => decide (c.close < sp.price))
    (fun k sp => ⟨.bearishBos, t, c.close, sp.price,
      calculateBosStrength c sp.price false, k⟩) false (fun _ _ => ⟨rfl, rfl⟩) k
  have hz1 := hl2 true (by decide)
  have hz2 := hh2 false (by decide)
  constructor
  · simp only [bosStep, evCount, List.countP_append]
    simp only [evCount] at hh1 hz1
    omega
  · simp only [bosStep, evCount, List.countP_append]
    simp only [evCount] at hl1 hz2
    omega

theorem chochFold_bound (candles : List (ℕ × Candle)) :
    ∀ (st : (List SwingPt × List SwingPt) × List StructEvent) (k : ℕ),
      (evCount (candles.foldl (fun st tc => chochStep tc.1 tc.2 st) st).2 true k +
          brokenBound st.1.1 k ≤
        evCount st.2 true k +
          brokenBound (candles.foldl (fun st tc => chochStep tc.1 tc.2 st) st).1.1 k) ∧
      (evCount (candles.foldl (fun st tc => chochStep tc.1 tc.2 st) st).2 false k +
          brokenBound st.1.2 k ≤
        evCount st.2 false k +
          brokenBound (candles.foldl (fun st tc => chochStep tc.1 tc.2 st) st).1.2 k) := by
  induction candles with
  | nil => exact fun st k => ⟨le_refl _, le_refl _⟩
  | cons tc rest ih =>
    intro st k
    simp only [List.foldl_cons]
    obtain ⟨s1, s2⟩ := chochStep_bound tc.1 tc.2 st k
    obtain ⟨i1, i2⟩ := ih (chochStep tc.1 tc.2 st) k
    exact ⟨by omega, by omega⟩

theorem bosFold_bound (candles : List (ℕ × Candle)) :
    ∀ (st : (List SwingPt × List SwingPt) × List StructEvent) (k : ℕ),
      (evCount (candles.foldl (fun st tc => bosStep tc.1 tc.2 st) st).2 true k +
          brokenBound st.1.1 k ≤
        evCount st.2 true k +
          brokenBound (candles.foldl (fun st tc => bosStep tc.1 tc.2 st) st).1.1 k) ∧
      (evCount (candles.foldl (fun st tc => bosStep tc.1 tc.2 st) st).2 false k +
          brokenBound st.1.2 k ≤
        evCount st.2 false k +
          brokenBound (candles.foldl (fun st tc => bosStep tc.1 tc.2 st) st).1.2 k) := by
  induction candles with
  | nil => exact fun st k => ⟨le_refl _, le_refl _⟩
  | cons tc rest ih =>
    intro st k
    simp only [List.foldl_cons]
    obtain ⟨s1, s2⟩ := bosStep_bound tc.1 tc.2 st k
    obtain ⟨i1, i2⟩ := ih (bosStep tc.1 tc.2 st) k
    exact ⟨by omega, by omega⟩

theorem detectChoch_bound (df : List Candle) (hs ls : List SwingPt) (k : ℕ) :
    (evCount (detectChoch df hs ls).2 true k + brokenBound hs k ≤
      brokenBound (detectChoch df hs ls).1.1 k) ∧
    (evCount (detectChoch df hs ls).2 false k + brokenBound ls k ≤
      brokenBound (detectChoch df hs ls).1.2 k) := by
  have h := chochFold_bound (df.enum.drop (df.length - 10)) ((hs, ls), []) k
  simpa [detectChoch, evCount] using h

theorem detectBos_bound (df : List Candle) (hs ls : List SwingPt) (k : ℕ) :
    (evCount (detectBos df hs ls).2 true k + brokenBound hs k ≤
      brokenBound (detectBos df hs ls).1.1 k) ∧
    (evCount (detectBos df hs ls).2 false k + brokenBound ls k ≤
      brokenBound (detectBos df hs ls).1.2 k) := by
  have h := bosFold_bound (df.enum.drop (df.length - 10)) ((hs, ls), []) k
  simpa [detectBos, evCount] using h

/-- C8: within one `detect_market_structure` pass, every swing point
triggers at most one liquidity sweep (its `swept` flag is set on first
trigger) and at most one structure event across the CHoCH and BOS
lists combined (its `broken` flag is set on first trigger).  Swing
point `k` of the highs list is referenced by high sweeps and bullish
events; `k` of the lows list by low sweeps and bearish events. -/
theorem c8_single_consumption (df : List Candle) (k : ℕ) :
    swCount (detectMarketStructure df).liquiditySweeps .highSweep k ≤ 1 ∧
    swCount (detectMarketStructure df).liquiditySweeps .lowSweep k ≤ 1 ∧
    evCount ((detectMarketStructure df).chochSignals ++
      (detectMarketStructure df).bosSignals) true k ≤ 1 ∧
    evCount ((detectMarketStructure df).chochSignals ++
      (detectMarketStructure df).bosSignals) false k ≤ 1 := by
  simp only [detectMarketStructure]
  split
  case isTrue h =>
    refine ⟨detectLiquiditySweeps_once df _ _ .highSweep k,
      detectLiquiditySweeps_once df _ _ .lowSweep k, ?_, ?_⟩
    · obtain ⟨hc, _⟩ := detectChoch_bound df
        (detectLiquiditySweeps df (findSwingPoints df 5).1 (findSwingPoints df 5).2).1.1
        (detectLiquiditySweeps df (findSwingPoints df 5).1 (findSwingPoints df 5).2).1.2 k
      obtain ⟨hb, _⟩ := detectBos_bound df
        (detectChoch df
          (detectLiquiditySweeps df (findSwingPoints df 5).1 (findSwingPoints df 5).2).1.1
          (detectLiquiditySweeps df (findSwingPoints df 5).1 (findSwingPoints df 5).2).1.2).1.1
        (detectChoch df
          (detectLiquiditySweeps df (findSwingPoints df 5).1 (findSwingPoints df 5).2).1.1
          (detectLiquiditySweeps df (findSwingPoints df 5).1 (findSwingPoints df 5).2).1.2).1.2 k
      have hfin : brokenBound (detectBos df
          (detectChoch df
            (detectLiquiditySweeps df (findSwingPoints df 5).1 (findSwingPoints df 5).2).1.1
            (detectLiquiditySweeps df (findSwingPoints df 5).1 (findSwingPoints df 5).2).1.2).1.1
          (detectChoch df
            (detectLiquiditySweeps df (findSwingPoints df 5).1 (findSwingPoints df 5).2).1.1
            (detectLiquiditySweeps df (findSwingPoints df 5).1 (findSwingPoints df 5).2).1.2).1.2).1.1 k ≤ 1 := by
        unfold brokenBound
        split <;> omega
      simp only [evCount, List.countP_append] at hc hb ⊢
      omega
    · obtain ⟨_, hc⟩ := detectChoch_bound df
        (detectLiquiditySweeps df (findSwingPoints df 5).1 (findSwingPoints df 5).2).1.1
        (detectLiquiditySweeps df (findSwingPoints df 5).1 (findSwingPoints df 5).2).1.2 k
      obtain ⟨_, hb⟩ := detectBos_bound df
        (detectChoch df
          (detectLiquiditySweeps df (findSwingPoints df 5).1 (findSwingPoints df 5).2).1.1
          (detectLiquiditySweeps df (findSwingPoints df 5).1 (findSwingPoints df 5).2).1.2).1.1
        (detectChoch df
          (detectLiquiditySweeps df (findSwingPoints df 5).1 (findSwingPoints df 5).2).1.1
          (detectLiquiditySweeps df (findSwingPoints df 5).1 (findSwingPoints df 5).2).1.2).1.2 k
      have hfin : brokenBound (detectBos df
          (detectChoch df
            (detectLiquiditySweeps df (findSwingPoints df 5).1 (findSwingPoints df 5).2).1.1
            (detectLiquiditySweeps df (findSwingPoints df 5).1 (findSwingPoints df 5).2).1.2).1.1
          (detectChoch df
            (detectLiquiditySweeps df (findSwingPoints df 5).1 (findSwingPoints df 5).2).1.1
            (detectLiquiditySweeps df (findSwingPoints df 5).1 (findSwingPoints df 5).2).1.2).1.2).1.2 k ≤ 1 := by
        unfold brokenBound
        split <;> omega
      simp only [evCount, List.countP_append] at hc hb ⊢
      omega
  case isFalse h =>
    exact ⟨by simp [swCount], by simp [swCount], by simp [evCount], by simp [evCount]⟩

/-! ## Risk engine (`src/strategies/risk_management.py`) -/

/-- Zone type tag of an `active_zones` entry as produced by
`check_price_in_zones` (`'bullish_ob'`, `'bearish_ob'`,
`'bullish_fvg'`, `'bearish_fvg'`). -/
inductive ZoneType where
  | bullishOb
  | bearishOb
  | bullishFvg
  | bearishFvg
deriving DecidableEq, Repr

/-- The `'bullish' in zone['type']` substring test. -/
def ZoneType.isBullish : ZoneType → Bool
  | .bullishOb => true
  | .bullishFvg => true
  | .bearishOb => false
  | .bearishFvg => false

/-- The `'bearish' in zone['type']` substring test. -/
def ZoneType.isBearish : ZoneType → Bool
  | .bullishOb => false
  | .bullishFvg => false
  | .bearishOb => true
  | .bearishFvg => true

/-- An `active_zones` entry (`type`, `top`, `bottom`, `strength`). -/
structure ActiveZone where
  ztype : ZoneType
  top : ℚ
  bottom : ℚ
  strength : ℚ
deriving DecidableEq, Repr

/-- The parts of the `structure_data` dict that
`_calculate_long/short_stop_loss` reads.  An absent `swing_points`
list is the empty list; `momentum_low`/`momentum_high` are `none` when
absent (the Python truthiness test also drops an exact 0.0 level,
modelled by the explicit `≠ 0` guard below). -/
structure StructureData where
  swingHighs : List SwingPt
  swingLows : List SwingPt
  momentumLow : Option ℚ
  momentumHigh : Option ℚ
  activeZones : List ActiveZone
deriving DecidableEq, Repr

/-- The fields of the optional `sweep_data` dict the stop-loss
calculation reads. -/
structure SweepData where
  stype : SweepKind
  sweepPrice : ℚ
deriving DecidableEq, Repr

/-- Ranked stop-loss candidate names. -/
inductive StopName where
  | sweepLow
  | swingLow
  | momentumLow
  | zoneLow
  | sweepHigh
  | swingHigh
  | momentumHigh
  | zoneHigh
deriving DecidableEq, Repr

/-- A `(name, price, strength)` stop candidate tuple. -/
abbrev StopCand := StopName × ℚ × ℚ

/-- The `stop_candidates` list built by `_calculate_long_stop_loss`:
sweep wick (100), most recent swing low (80), momentum low (70), each
bullish zone bottom (60), every level bufferd 0.1% of entry below. -/
def longStopCandidates (entry : ℚ) (sd : StructureData)
    (sweep : Option SweepData) : List StopCand :=
  (match sweep with
   | some sw =>
     if sw.stype = .lowSweep then
       [(.sweepLow, sw.sweepPrice - entry * (1/1000), 100)]
     else []
   | none => []) ++
  (match sd.swingLows.getLast? with
   | some recentLow => [(.swingLow, recentLow.price - entry * (1/1000), 80)]
   | none => []) ++
  (match sd.momentumLow with
   | some m => if m ≠ 0 then [(.momentumLow, m - entry * (1/1000), 70)] else []
   | none => []) ++
  (sd.activeZones.filterMap fun z =>
    if z.ztype.isBullish then some (.zoneLow, z.bottom - entry * (1/1000), 60)
    else none)

/-- Mirror candidate list of `_calculate_short_stop_loss` (levels
buffered above, bearish zone tops). -/
def shortStopCandidates (entry : ℚ) (sd : StructureData)
    (sweep : Option SweepData) : List StopCand :=
  (match sweep with
   | some sw =>
     if sw.stype = .highSweep then
       [(.sweepHigh, sw.sweepPrice + entry * (1/1000), 100)]
     else []
   | none => []) ++
  (match sd.swingHighs.getLast? with
   | some recentHigh => [(.swingHigh, recentHigh.price + entry * (1/1000), 80)]
   | none => []) ++
  (match sd.momentumHigh with
   | some m => if m ≠ 0 then [(.momentumHigh, m + entry * (1/1000), 70)] else []
   | none => []) ++
  (sd.activeZones.filterMap fun z =>
    if z.ztype.isBearish then some (.zoneHigh, z.top + entry * (1/1000), 60)
    else none)

/-- The `valid_stops` filter for LONG: below entry, risk distance
between 0.5% and 5% of entry. -/
def validLongStops (entry : ℚ) (sd : StructureData)
    (sweep : Option SweepData) : List StopCand :=
  (longStopCandidates entry sd sweep).filter fun c =>
    decide (c.2.1 < entry ∧ 1/200 ≤ (entry - c.2.1) / entry ∧
      (entry - c.2.1) / entry ≤ 1/20)

/-- The `valid_stops` filter for SHORT: above entry, distance between
0.5% and 5% of entry. -/
def validShortStops (entry : ℚ) (sd : StructureData)
    (sweep : Option SweepData) : List StopCand :=
  (shortStopCandidates entry sd sweep).filter fun c =>
    decide (entry < c.2.1 ∧ 1/200 ≤ (c.2.1 - entry) / entry ∧
      (c.2.1 - entry) / entry ≤ 1/20)

/-- Python's `max(valid_stops, key=lambda x: x[2])`: the first element
with maximal strength (replacement only on strict increase). -/
def maxByStrength (l : List StopCand) : Option StopCand :=
  l.foldl (fun acc c =>
    match acc with
    | none => some c
    | some b => if b.2.2 < c.2.2 then some c else some b) none

/-- `_calculate_long_stop_loss`: strongest valid candidate, else the
fixed 2% fallback below entry. -/
def calculateLongStopLoss (entry : ℚ) (sd : StructureData)
    (sweep : Option SweepData) : ℚ :=
  match maxByStrength (validLongStops entry sd sweep) with
  | some best => best.2.1
  | none => entry * (98/100)

/-- `_calculate_short_stop_loss`: strongest valid candidate, else the
fixed 2% fallback above entry. -/
def calculateShortStopLoss (entry : ℚ) (sd : StructureData)
    (sweep : Option SweepData) : ℚ :=
  match maxByStrength (validShortStops entry sd sweep) with
  | some best => best.2.1
  | none => entry * (102/100)

/-- `calculate_stop_loss` dispatch on the signal type. -/
def calculateStopLoss (signalType : Direction) (entry : ℚ) (sd : StructureData)
    (sweep : Option SweepData) : ℚ :=
  if signalType = .long then calculateLongStopLoss entry sd sweep
  else calculateShortStopLoss entry sd sweep

theorem maxByStrength_go (l : List StopCand) :
    ∀ a : StopCand, ∃ c,
      l.foldl (fun acc c =>
        match acc with
        | none => some c
        | some b => if b.2.2 < c.2.2 then some c else some b) (some a) = some c ∧
      (c = a ∨ c ∈ l) ∧ a.2.2 ≤ c.2.2 ∧ ∀ b ∈ l, b.2.2 ≤ c.2.2 := by
  induction l with
  | nil => exact fun a => ⟨a, rfl, .inl rfl, le_refl _, by simp⟩
  | cons x xs ih =>
    intro a
    simp only [List.foldl_cons]
    by_cases hx : a.2.2 < x.2.2
    · rw [if_pos hx]
      obtain ⟨c, h1, h2, h3, h4⟩ := ih x
      refine ⟨c, h1, ?_, le_trans (le_of_lt hx) h3, ?_⟩
      · rcases h2 with rfl | h2
        · exact .inr (List.mem_cons_self _ _)
        · exact .inr (List.mem_cons_of_mem _ h2)
      · intro b hb
        rcases List.mem_cons.mp hb with rfl | hb
        · exact h3
        · exact h4 b hb
    · rw [if_neg hx]
      obtain ⟨c, h1, h2, h3, h4⟩ := ih a
      refine ⟨c, h1, ?_, h3, ?_⟩
      · rcases h2 with rfl | h2
        · exact .inl rfl
        · exact .inr (List.mem_cons_of_mem _ h2)
      · intro b hb
        rcases List.mem_cons.mp hb with rfl | hb
        · exact le_trans (le_of_not_lt hx) h3
        · exact h4 b hb

/-- `max` over a nonempty candidate list returns a member of maximal
strength. -/
theorem maxByStrength_spec (l : List StopCand) (h : l ≠ []) :
    ∃ c ∈ l, maxByStrength l = some c ∧ ∀ b ∈ l, b.2.2 ≤ c.2.2 := by
  cases l with
  | nil => exact absurd rfl h
  | cons x xs =>
    obtain ⟨c, h1, h2, h3, h4⟩ := maxByStrength_go xs x
    refine ⟨c, ?_, ?_, ?_⟩
    · rcases h2 with rfl | h2
      · exact List.mem_cons_self _ _
      · exact List.mem_cons_of_mem _ h2
    · simpa [maxByStrength] using h1
    · intro b hb
      rcases List.mem_cons.mp hb with rfl | hb
      · exact h3
      · exact h4 b hb

/-- C7: the stop loss the risk engine returns is the strongest (i.e.
highest-priority: sweep wick 100 > recent swing 80 > momentum extreme
70 > zone edge 60) candidate among those lying on the correct side of
entry with a risk distance between 0.5% and 5% of entry; when no
candidate qualifies it is exactly the fixed 2% offset
(`entry*0.98` LONG / `entry*1.02` SHORT). -/
theorem c7_stop_priority (dir : Direction) (entry : ℚ) (sd : StructureData)
    (sweep : Option SweepData) :
    (dir = .long →
      (validLongStops entry sd sweep = [] →
        calculateStopLoss dir entry sd sweep = entry * (98/100)) ∧
      (validLongStops entry sd sweep ≠ [] →
        ∃ c ∈ validLongStops entry sd sweep,
          calculateStopLoss dir entry sd sweep = c.2.1 ∧
          c.2.1 < entry ∧ 1/200 ≤ (entry - c.2.1) / entry ∧
          (entry - c.2.1) / entry ≤ 1/20 ∧
          ∀ b ∈ validLongStops entry sd sweep, b.2.2 ≤ c.2.2)) ∧
    (dir = .short →
      (validShortStops entry sd sweep = [] →
        calculateStopLoss dir entry sd sweep = entry * (102/100)) ∧
      (validShortStops entry sd sweep ≠ [] →
        ∃ c ∈ validShortStops entry sd sweep,
          calculateStopLoss dir entry sd sweep = c.2.1 ∧
          entry < c.2.1 ∧ 1/200 ≤ (c.2.1 - entry) / entry ∧
          (c.2.1 - entry) / entry ≤ 1/20 ∧
          ∀ b ∈ validShortStops entry sd sweep, b.2.2 ≤ c.2.2)) := by
  constructor
  · rintro rfl
    constructor
    · intro hempty
      simp [calculateStopLoss, calculateLongStopLoss, hempty, maxByStrength]
    · intro hne
      obtain ⟨c, hc1, hc2, hc3⟩ := maxByStrength_spec _ hne
      have hv := hc1
      rw [validLongStops, List.mem_filter] at hv
      simp only [decide_eq_true_eq] at hv
      refine ⟨c, hc1, ?_, hv.2.1, hv.2.2.1, hv.2.2.2, hc3⟩
      simp [calculateStopLoss, calculateLongStopLoss, hc2]
  · rintro rfl
    constructor
    · intro hempty
      simp [calculateStopLoss, calculateShortStopLoss, hempty, maxByStrength]
    · intro hne
      obtain ⟨c, hc1, hc2, hc3⟩ := maxByStrength_spec _ hne
      have hv := hc1
      rw [validShortStops, List.mem_filter] at hv
      simp only [decide_eq_true_eq] at hv
      refine ⟨c, hc1, ?_, hv.2.1, hv.2.2.1, hv.2.2.2, hc3⟩
      simp [calculateStopLoss, calculateShortStopLoss, hc2]

/-- Structural context for the C7 witness: a single swing low at
99.5, no sweep, no momentum level, no zones. -/
def c7Sd : StructureData := ⟨[], [⟨99.5, 3, false, false, false⟩], none, none, []⟩

/-- Witness for `c7_stop_priority`: with entry 100 and a swing low at
99.5 the candidate (swing_low, 99.4, 80) is valid and selected. -/
theorem c7_witness :
    ∃ c ∈ validLongStops 100 c7Sd none,
      calculateStopLoss .long 100 c7Sd none = c.2.1 ∧
      c.2.1 < 100 ∧ 1/200 ≤ (100 - c.2.1) / 100 ∧ (100 - c.2.1) / 100 ≤ 1/20 ∧
      ∀ b ∈ validLongStops 100 c7Sd none, b.2.2 ≤ c.2.2 :=
  ((c7_stop_priority .long 100 c7Sd none).1 rfl).2 (by
    norm_num [validLongStops, longStopCandidates, c7Sd, List.filter])

/-! ## Signal generation (`src/technical_analysis.py`) and the
price-move recalculation path (`main.py`) -/

/-- The level-bearing fields of the signal dict built by
`generate_trading_signal`. -/
structure TradeSignal where
  signalType : Direction
  entryPrice : ℚ
  stopLoss : ℚ
  tp1 : ℚ
  tp2 : ℚ
  tp3 : ℚ
  riskRewardRatio : ℚ
  confidence : ℚ
deriving DecidableEq, Repr

/-- `generate_trading_signal`: gate on minimum score 3 and a dominant
direction, compute the levels from current price and
support/resistance, gate on risk ≠ 0 and reward/risk ≥ 1.5, and
attach confidence `min(max_score/6*100, 95)`. -/
def generateTradingSignal (longScore shortScore currentPrice support resistance : ℚ) :
    Option TradeSignal :=
  if max longScore shortScore < 3 then none
  else if longScore = shortScore then none
  else
    let isLong := shortScore < longScore
    let stopLoss := if isLong then support * (98/100) else resistance * (102/100)
    let tp1 := if isLong then currentPrice * (102/100) else currentPrice * (98/100)
    let tp2 := if isLong then currentPrice * (104/100) else currentPrice * (96/100)
    let tp3 := if isLong then resistance * (98/100) else support * (102/100)
    let risk := |currentPrice - stopLoss| / currentPrice
    let reward := |tp1 - currentPrice| / currentPrice
    if risk = 0 ∨ reward / risk < 3/2 then none
    else some ⟨if isLong then .long else .short, currentPrice, stopLoss, tp1, tp2, tp3,
      reward / risk, min (max longScore shortScore / 6 * 100) 95⟩

/-- Inputs `_recalculate_tp_sl` reads off the signal dict. -/
structure RecalcSignal where
  signalType : Direction
  entryPrice : ℚ
  stopLoss : ℚ
  riskReward : ℚ
deriving DecidableEq, Repr

/-- Levels written back by `_recalculate_tp_sl`. -/
structure RecalcResult where
  entryPrice : ℚ
  stopLoss : ℚ
  tp1 : ℚ
  tp2 : ℚ
  tp3 : ℚ
  riskReward : ℚ
deriving DecidableEq, Repr

/-- `_recalculate_tp_sl` (main.py): rebase the levels on the current
market price, keeping the old risk distance and R/R multiple; the new
stop is a fixed 2% offset and **`tp3` is set equal to `tp2`**;
rejected (`None`) when the new reward/risk falls below 0.8. -/
def recalcTpSl (sig : RecalcSignal) (newPrice : ℚ) : Option RecalcResult :=
  let riskDistance := |sig.stopLoss - sig.entryPrice|
  let rr := sig.riskReward
  let newSl := if sig.signalType = .long then newPrice * (98/100)
    else newPrice * (102/100)
  let newTp1 := if sig.signalType = .long then newPrice + riskDistance * rr
    else newPrice - riskDistance * rr
  let newTp2 := if sig.signalType = .long then newPrice + riskDistance * rr * 2
    else newPrice - riskDistance * rr * 2
  let newRisk := |newPrice - newSl|
  let newReward := |newTp1 - newPrice|
  if newReward / newRisk < 4/5 then none
  else some ⟨newPrice, newSl, newTp1, newTp2, newTp2, newReward / newRisk⟩

/-- C3 counterexample: with scores 5/0, price 100, support 103 and
resistance 103, `generate_trading_signal` accepts (confidence 83.3 ≥
70, reward/risk = 100/47 ≥ 1.5) a LONG signal whose stop 100.94 lies
*above* entry 100 and whose tp3 = 100.94 lies *below* tp2 = 104; and
`_recalculate_tp_sl` always returns tp3 = tp2 (here both 104). -/
theorem c3_counterexample :
    generateTradingSignal 5 0 100 103 103 =
      some ⟨.long, 100, 5047/50, 102, 104, 5047/50, 100/47, 250/3⟩ ∧
    (70 : ℚ) ≤ 250/3 ∧
    ¬ ((5047 : ℚ)/50 < 100) ∧
    ¬ ((104 : ℚ) < 5047/50) ∧
    (recalcTpSl ⟨.long, 100, 98, 1⟩ 100).map (fun r => (r.tp2, r.tp3)) =
      some (104, 104) := by
  have habs : |(47 : ℚ)/50| = 47/50 := abs_of_pos (by norm_num)
  refine ⟨?_, by norm_num, by norm_num, by norm_num, ?_⟩
  · norm_num [generateTradingSignal, habs]
  · norm_num [recalcTpSl]

/-- C3 (amended): an accepted signal from `generate_trading_signal`
has `entry < tp1 < tp2` for LONG (mirrored `tp2 < tp1 < entry` for
SHORT) and `stop ≠ entry`, but neither `stop` on the correct side of
entry nor `tp2 < tp3` is guaranteed: the stop and tp3 come from
support/resistance levels that may lie on the wrong side, and the
recalculation path sets `tp3 = tp2` outright. -/
theorem c3_accepted_ordering (longScore shortScore p support resistance : ℚ)
    (s : TradeSignal) (hp : 0 < p)
    (h : generateTradingSignal longScore shortScore p support resistance = some s) :
    s.entryPrice = p ∧ s.stopLoss ≠ p ∧
    (s.signalType = .long → p < s.tp1 ∧ s.tp1 < s.tp2) ∧
    (s.signalType = .short → s.tp2 < s.tp1 ∧ s.tp1 < p) := by
  simp only [generateTradingSignal] at h
  split at h
  · exact absurd h (by simp)
  split at h
  · exact absurd h (by simp)
  by_cases hdir : shortScore < longScore
  · simp only [if_pos hdir] at h
    split at h
    · exact absurd h (by simp)
    rename_i hgate
    rw [Option.some.injEq] at h
    subst h
    push_neg at hgate
    dsimp only
    refine ⟨rfl, ?_, fun _ => ?_, fun hty => absurd hty (by decide)⟩
    · intro heq
      apply hgate.1
      rw [heq]
      simp
    · constructor <;> linarith
  · simp only [if_neg hdir] at h
    split at h
    · exact absurd h (by simp)
    rename_i hgate
    rw [Option.some.injEq] at h
    subst h
    push_neg at hgate
    dsimp only
    refine ⟨rfl, ?_, fun hty => absurd hty (by decide), fun _ => ?_⟩
    · intro heq
      apply hgate.1
      rw [heq]
      simp
    · constructor <;> linarith

/-- Witness for `c3_accepted_ordering` at the counterexample input. -/
theorem c3_witness :
    ∃ s, generateTradingSignal 5 0 100 103 103 = some s ∧
      s.entryPrice = 100 ∧ s.stopLoss ≠ 100 ∧
      (s.signalType = .long → (100 : ℚ) < s.tp1 ∧ s.tp1 < s.tp2) := by
  have habs : |(47 : ℚ)/50| = 47/50 := abs_of_pos (by norm_num)
  have h : generateTradingSignal 5 0 100 103 103 =
      some ⟨.long, 100, 5047/50, 102, 104, 5047/50, 100/47, 250/3⟩ := by
    norm_num [generateTradingSignal, habs]
  have hres := c3_accepted_ordering 5 0 100 103 103 _ (by norm_num) h
  exact ⟨_, h, hres.1, hres.2.1, hres.2.2.1⟩

/-! ## Zone detector query
(`src/strategies/order_block_fvg_detector.py`) -/

/-- An order block as stored in the `bullish_ob`/`bearish_ob` lists
(fields read by `check_price_in_zones`: `low`, `high`, `strength`). -/
structure ObZone where
  low : ℚ
  high : ℚ
  strength : ℚ
deriving DecidableEq, Repr

/-- A fair value gap as stored in the `bullish_fvg`/`bearish_fvg`
lists (fields read by the query: `top`, `bottom`, `strength`,
`filled`). -/
structure FvgZone where
  top : ℚ
  bottom : ℚ
  strength : ℚ
  filled : Bool
deriving DecidableEq, Repr

/-- Result dict of `check_price_in_zones`. -/
structure ZoneQueryResult where
  inBullishOb : Bool
  inBearishOb : Bool
  inBullishFvg : Bool
  inBearishFvg : Bool
  activeZones : List ActiveZone
deriving DecidableEq, Repr

/-- `check_price_in_zones`: each zone list is scanned with the
inclusive containment test `low <= price <= high` (OBs) /
`bottom <= price <= top and not filled` (FVGs); each match sets the
side's flag and appends an active-zone record; the records are then
sorted by strength, strongest first. -/
def checkPriceInZones (price : ℚ) (bullishOb bearishOb : List ObZone)
    (bullishFvg bearishFvg : List FvgZone) : ZoneQueryResult :=
  let bObHits := bullishOb.filter fun ob => decide (ob.low ≤ price ∧ price ≤ ob.high)
  let sObHits := bearishOb.filter fun ob => decide (ob.low ≤ price ∧ price ≤ ob.high)
  let bFvgHits := bullishFvg.filter fun f =>
    decide (f.bottom ≤ price ∧ price ≤ f.top) && !f.filled
  let sFvgHits := bearishFvg.filter fun f =>
    decide (f.bottom ≤ price ∧ price ≤ f.top) && !f.filled
  let zones : List ActiveZone :=
    bObHits.map (fun ob => ⟨.bullishOb, ob.high, ob.low, ob.strength⟩) ++
    sObHits.map (fun ob => ⟨.bearishOb, ob.high, ob.low, ob.strength⟩) ++
    bFvgHits.map (fun f => ⟨.bullishFvg, f.top, f.bottom, f.strength⟩) ++
    sFvgHits.map (fun f => ⟨.bearishFvg, f.top, f.bottom, f.strength⟩)
  ⟨!bObHits.isEmpty, !sObHits.isEmpty, !bFvgHits.isEmpty, !sFvgHits.isEmpty,
    zones.mergeSort fun a b => decide (b.strength ≤ a.strength)⟩

/-- C10: zone containment is inclusive at both edges — a price equal
to a zone's top or bottom boundary sets the corresponding flag and
places the zone among `active_zones` (for FVGs only when unfilled) —
and no reported active zone ever lies strictly outside
`[bottom, top]`. -/
theorem c10_zone_containment (price : ℚ) (bullishOb bearishOb : List ObZone)
    (bullishFvg bearishFvg : List FvgZone) :
    (∀ z ∈ (checkPriceInZones price bullishOb bearishOb bullishFvg
        bearishFvg).activeZones, z.bottom ≤ price ∧ price ≤ z.top) ∧
    (∀ ob ∈ bullishOb, ob.low ≤ price → price ≤ ob.high →
      (checkPriceInZones price bullishOb bearishOb bullishFvg
        bearishFvg).inBullishOb = true ∧
      (⟨.bullishOb, ob.high, ob.low, ob.strength⟩ : ActiveZone) ∈
        (checkPriceInZones price bullishOb bearishOb bullishFvg
          bearishFvg).activeZones) ∧
    (∀ ob ∈ bearishOb, ob.low ≤ price → price ≤ ob.high →
      (checkPriceInZones price bullishOb bearishOb bullishFvg
        bearishFvg).inBearishOb = true ∧
      (⟨.bearishOb, ob.high, ob.low, ob.strength⟩ : ActiveZone) ∈
        (checkPriceInZones price bullishOb bearishOb bullishFvg
          bearishFvg).activeZones) ∧
    (∀ f ∈ bullishFvg, f.filled = false → f.bottom ≤ price → price ≤ f.top →
      (checkPriceInZones price bullishOb bearishOb bullishFvg
        bearishFvg).inBullishFvg = true ∧
      (⟨.bullishFvg, f.top, f.bottom, f.strength⟩ : ActiveZone) ∈
        (checkPriceInZones price bullishOb bearishOb bullishFvg
          bearishFvg).activeZones) ∧
    (∀ f ∈ bearishFvg, f.filled = false → f.bottom ≤ price → price ≤ f.top →
      (checkPriceInZones price bullishOb bearishOb bullishFvg
        bearishFvg).inBearishFvg = true ∧
      (⟨.bearishFvg, f.top, f.bottom, f.strength⟩ : ActiveZone) ∈
        (checkPriceInZones price bullishOb bearishOb bullishFvg
          bearishFvg).activeZones) := by
  simp only [checkPriceInZones]
  refine ⟨?_, ?_, ?_, ?_, ?_⟩
  · intro z hz
    rw [List.Perm.mem_iff (List.mergeSort_perm _ _)] at hz
    simp only [List.mem_append, List.mem_map, List.mem_filter,
      Bool.and_eq_true, Bool.not_eq_eq_eq_not, Bool.not_true,
      decide_eq_true_eq] at hz
    rcases hz with ((⟨ob, ⟨_, hc⟩, rfl⟩ | ⟨ob, ⟨_, hc⟩, rfl⟩) |
        ⟨f, ⟨_, hc, _⟩, rfl⟩) | ⟨f, ⟨_, hc, _⟩, rfl⟩ <;>
      exact hc
  · intro ob hob h1 h2
    constructor
    · rw [Bool.not_eq_true', List.isEmpty_eq_false]
      intro hnil
      rw [List.filter_eq_nil_iff] at hnil
      exact hnil ob hob (by simp [h1, h2])
    · rw [List.Perm.mem_iff (List.mergeSort_perm _ _)]
      simp only [List.mem_append, List.mem_map, List.mem_filter]
      exact .inl (.inl (.inl ⟨ob, ⟨hob, by simp [h1, h2]⟩, rfl⟩))
  · intro ob hob h1 h2
    constructor
    · rw [Bool.not_eq_true', List.isEmpty_eq_false]
      intro hnil
      rw [List.filter_eq_nil_iff] at hnil
      exact hnil ob hob (by simp [h1, h2])
    · rw [List.Perm.mem_iff (List.mergeSort_perm _ _)]
      simp only [List.mem_append, List.mem_map, List.mem_filter]
      exact .inl (.inl (.inr ⟨ob, ⟨hob, by simp [h1, h2]⟩, rfl⟩))
  · intro f hf hfill h1 h2
    constructor
    · rw [Bool.not_eq_true', List.isEmpty_eq_false]
      intro hnil
      rw [List.filter_eq_nil_iff] at hnil
      exact hnil f hf (by simp [h1, h2, hfill])
    · rw [List.Perm.mem_iff (List.mergeSort_perm _ _)]
      simp only [List.mem_append, List.mem_map, List.mem_filter]
      exact .inl (.inr ⟨f, ⟨hf, by simp [h1, h2, hfill]⟩, rfl⟩)
  · intro f hf hfill h1 h2
    constructor
    · rw [Bool.not_eq_true', List.isEmpty_eq_false]
      intro hnil
      rw [List.filter_eq_nil_iff] at hnil
      exact hnil f hf (by simp [h1, h2, hfill])
    · rw [List.Perm.mem_iff (List.mergeSort_perm _ _)]
      simp only [List.mem_append, List.mem_map, List.mem_filter]
      exact .inr ⟨f, ⟨hf, by simp [h1, h2, hfill]⟩, rfl⟩

/-- Witness for `c10_zone_containment`: price 101 sits exactly on the
top edge of the order block [99, 101] and is reported inside. -/
theorem c10_witness :
    (checkPriceInZones 101 [⟨99, 101, 50⟩] [] [] []).inBullishOb = true ∧
    (⟨.bullishOb, 101, 99, 50⟩ : ActiveZone) ∈
      (checkPriceInZones 101 [⟨99, 101, 50⟩] [] [] []).activeZones :=
  (c10_zone_containment 101 [⟨99, 101, 50⟩] [] [] []).2.1
    ⟨99, 101, 50⟩ (List.mem_singleton.mpr rfl) (by norm_num) (by norm_num)

/-! ## Trend strength filter
(`src/strategies/adx_directional_filter.py`)

The ADX/DI pipeline of `calculate_adx_di` is embedded row-wise over
the candle list: the first row's true range degrades to `high - low`
(pandas `max(axis=1)` skips the NaN shifted terms) and its directional
movements to 0 (NaN comparisons are false); divisions by zero follow
the `ℚ` convention `x / 0 = 0`, where the float pipeline would produce
NaN values that `fillna(0)` replaces. -/

/-- Per-row `(true_range, plus_dm, minus_dm)` for all rows after the
first; `prev` is the preceding candle. -/
def rawRowsGo : Candle → List Candle → List (ℚ × ℚ × ℚ)
  | _, [] => []
  | prev, c :: rest =>
    let tr := max (c.high - c.low) (max |c.high - prev.close| |c.low - prev.close|)
    let highDiff := c.high - prev.high
    let lowDiff := prev.low - c.low
    let plusDm := if lowDiff < highDiff ∧ 0 < highDiff then highDiff else 0
    let minusDm := if highDiff < lowDiff ∧ 0 < lowDiff then lowDiff else 0
    (tr, plusDm, minusDm) :: rawRowsGo c rest

/-- `(true_range, plus_dm, minus_dm)` for every row. -/
def rawRows : List Candle → List (ℚ × ℚ × ℚ)
  | [] => []
  | c :: rest => (c.high - c.low, 0, 0) :: rawRowsGo c rest

/-- Tail of Wilder's smoothing (`ewm(alpha=1/period, adjust=False)`):
`y_n = α·x_n + (1-α)·y_(n-1)`. -/
def wilderSmoothGo (alpha : ℚ) : ℚ → List ℚ → List ℚ
  | _, [] => []
  | y, x :: rest =>
    let y2 := alpha * x + (1 - alpha) * y
    y2 :: wilderSmoothGo alpha y2 rest

/-- `_wilder_smooth`: exponentially weighted mean seeded with the
first value. -/
def wilderSmooth (period : ℕ) : List ℚ → List ℚ
  | [] => []
  | x :: rest => x :: wilderSmoothGo (1 / (period : ℚ)) x rest

/-- `calculate_adx_di` reduced to the `(plus_di, minus_di, adx)`
columns the signal analysis reads. -/
def calculateAdxDi (period : ℕ) (df : List Candle) : List (ℚ × ℚ × ℚ) :=
  let raw := rawRows df
  let trS := wilderSmooth period (raw.map fun r => r.1)
  let pS := wilderSmooth period (raw.map fun r => r.2.1)
  let mS := wilderSmooth period (raw.map fun r => r.2.2)
  let plusDi := List.zipWith (fun p t => 100 * (p / t)) pS trS
  let minusDi := List.zipWith (fun m t => 100 * (m / t)) mS trS
  let dx := List.zipWith (fun p m => 100 * (|p - m| / (p + m))) plusDi minusDi
  let adx := wilderSmooth period dx
  List.zipWith (fun pm a => (pm.1, pm.2, a))
    (List.zipWith (fun p m => (p, m)) plusDi minusDi) adx

/-- `_get_trend_direction` categories. -/
inductive TrendDirection where
  | strongBullish
  | bullish
  | strongBearish
  | bearish
  | neutral
deriving DecidableEq, Repr

/-- `_get_trend_direction`. -/
def getTrendDirection (pdi mdi : ℚ) : TrendDirection :=
  if mdi < pdi then (if 5 < pdi - mdi then .strongBullish else .bullish)
  else if pdi < mdi then (if 5 < mdi - pdi then .strongBearish else .bearish)
  else .neutral

/-- `_get_trend_strength` categories. -/
inductive TrendStrengthCat where
  | veryStrong
  | strong
  | moderate
  | weak
  | noTrend
deriving DecidableEq, Repr

/-- `_get_trend_strength`. -/
def getTrendStrength (adx : ℚ) : TrendStrengthCat :=
  if 50 ≤ adx then .veryStrong
  else if 35 ≤ adx then .strong
  else if 25 ≤ adx then .moderate
  else if 20 ≤ adx then .weak
  else .noTrend

/-- `_get_directional_bias` categories. -/
inductive DirectionalBias where
  | neutral
  | bullish
  | bearish
deriving DecidableEq, Repr

/-- `_get_directional_bias`. -/
def getDirectionalBias (pdi mdi : ℚ) : DirectionalBias :=
  if |pdi - mdi| < 3 then .neutral
  else if mdi < pdi then .bullish
  else .bearish

/-- `_calculate_signal_quality` (ADX magnitude 40, DI separation 30,
ADX momentum 20, DI momentum 10, capped at 100); the `p`-prefixed
arguments are the previous row's values. -/
def calculateSignalQuality (pdi mdi adx ppdi pmdi padx : ℚ) : ℚ :=
  let q1 : ℚ :=
    if 50 ≤ adx then 40 else if 35 ≤ adx then 30
    else if 25 ≤ adx then 20 else if 20 ≤ adx then 10 else 0
  let diSeparation := |pdi - mdi|
  let q2 : ℚ :=
    if 15 ≤ diSeparation then 30 else if 10 ≤ diSeparation then 20
    else if 5 ≤ diSeparation then 15 else if 3 ≤ diSeparation then 10 else 0
  let q3 : ℚ :=
    if padx < adx then
      (if 2 ≤ adx - padx then 20 else if 1 ≤ adx - padx then 15
       else if 1/2 ≤ adx - padx then 10 else 0)
    else 0
  let q4 : ℚ :=
    if mdi < pdi then
      (if ppdi < pdi ∧ mdi < pmdi then 10 else if ppdi < pdi then 5 else 0)
    else
      (if pmdi < mdi ∧ pdi < ppdi then 10 else if pmdi < mdi then 5 else 0)
  min (q1 + q2 + q3 + q4) 100

/-- A DI crossover event. -/
structure Crossover where
  isBullish : Bool
  strength : ℚ
  plusDi : ℚ
  minusDi : ℚ
deriving DecidableEq, Repr

/-- `_detect_di_crossover` (the third-from-last row is fetched by the
Python code but never used). -/
def detectDiCrossover (rows : List (ℚ × ℚ × ℚ)) : Option Crossover :=
  if rows.length < 3 then none
  else
    let current := rows.getD (rows.length - 1) (0, 0, 0)
    let prev := rows.getD (rows.length - 2) (0, 0, 0)
    if prev.1 ≤ prev.2.1 ∧ current.2.1 < current.1 ∧ 20 ≤ current.2.2 then
      some ⟨true, current.2.2, current.1, current.2.1⟩
    else if prev.2.1 ≤ prev.1 ∧ current.1 < current.2.1 ∧ 20 ≤ current.2.2 then
      some ⟨false, current.2.2, current.1, current.2.1⟩
    else none

/-- The dict returned by `get_adx_signal`. -/
structure AdxSignal where
  adx : ℚ
  plusDi : ℚ
  minusDi : ℚ
  adxStrong : Bool
  trendDirection : TrendDirection
  trendStrength : TrendStrengthCat
  directionalBias : DirectionalBias
  signalQuality : ℚ
  longAllowed : Bool
  shortAllowed : Bool
  adxRising : Bool
  crossoverSignal : Option Crossover
deriving DecidableEq, Repr

/-- `_empty_signal`: the neutral/zeroed result. -/
def emptySignal : AdxSignal :=
  ⟨0, 0, 0, false, .neutral, .noTrend, .neutral, 0, false, false, false, none⟩

/-- `get_adx_signal`: run the ADX pipeline, return `_empty_signal`
for fewer than `period` rows, otherwise analyse the last two rows.
Totality of this definition is the embedding of "never raises". -/
def getAdxSignal (period : ℕ) (df : List Candle) (minAdx : ℚ) : AdxSignal :=
  let data := calculateAdxDi period df
  if data.length < period then emptySignal
  else
    let latest := data.getD (data.length - 1) (0, 0, 0)
    let prev := if 1 < data.length then data.getD (data.length - 2) (0, 0, 0)
      else latest
    { adx := latest.2.2
      plusDi := latest.1
      minusDi := latest.2.1
      adxStrong := decide (minAdx ≤ latest.2.2)
      trendDirection := getTrendDirection latest.1 latest.2.1
      trendStrength := getTrendStrength latest.2.2
      directionalBias := getDirectionalBias latest.1 latest.2.1
      signalQuality := calculateSignalQuality latest.1 latest.2.1 latest.2.2
        prev.1 prev.2.1 prev.2.2
      longAllowed := decide (minAdx ≤ latest.2.2 ∧ latest.2.1 < latest.1)
      shortAllowed := decide (minAdx ≤ latest.2.2 ∧ latest.1 < latest.2.1)
      adxRising := decide (prev.2.2 < latest.2.2)
      crossoverSignal := detectDiCrossover data }

theorem rawRowsGo_length (prev : Candle) (l : List Candle) :
    (rawRowsGo prev l).length = l.length := by
  induction l generalizing prev with
  | nil => rfl
  | cons c rest ih => simp [rawRowsGo, ih]

theorem rawRows_length (df : List Candle) : (rawRows df).length = df.length := by
  cases df with
  | nil => rfl
  | cons c rest => simp [rawRows, rawRowsGo_length]

theorem wilderSmoothGo_length (alpha y : ℚ) (l : List ℚ) :
    (wilderSmoothGo alpha y l).length = l.length := by
  induction l generalizing y with
  | nil => rfl
  | cons x rest ih => simp [wilderSmoothGo, ih]

theorem wilderSmooth_length (period : ℕ) (l : List ℚ) :
    (wilderSmooth period l).length = l.length := by
  cases l with
  | nil => rfl
  | cons x rest => simp [wilderSmooth, wilderSmoothGo_length]

theorem calculateAdxDi_length (period : ℕ) (df : List Candle) :
    (calculateAdxDi period df).length = df.length := by
  simp only [calculateAdxDi, List.length_zipWith, wilderSmooth_length,
    List.length_map, rawRows_length]
  omega

/-- C9: for any candle series shorter than `period` — the empty one
included — `get_adx_signal` returns exactly the neutral/zeroed
`_empty_signal` (adx = +DI = -DI = 0, `adx_strong`, `long_allowed`,
`short_allowed` all false, NEUTRAL direction, quality 0) and, being a
total function, never raises. -/
theorem c9_short_input_neutral (period : ℕ) (df : List Candle) (minAdx : ℚ)
    (h : df.length < period) :
    getAdxSignal period df minAdx = emptySignal := by
  have hlen : (calculateAdxDi period df).length < period := by
    rw [calculateAdxDi_length]
    exact h
  simp [getAdxSignal, hlen]

/-- Witness for `c9_short_input_neutral` on the empty series with the
default period 14. -/
theorem c9_witness : getAdxSignal 14 [] 25 = emptySignal :=
  c9_short_input_neutral 14 [] 25 (by decide)

end KucoinBot
